import Mathlib

/-!
Verification of the custom cfn-lint rules in
shared/lint/rules/custom_rules.py.

The rules inspect a parsed CloudFormation template, supplied by the host
linter as nested Python dictionaries, lists and scalars.  We embed the
Python value space as `Val`, Python dictionary and sequence operations
(including their exception behaviour) as functions into `Except PyError`,
and each rule body as a function from a template to the list of
violations it appends, or the Python exception it raises.
-/

/-- A Python value as it occurs in a parsed CloudFormation template:
`None`, booleans, integers, strings, lists, and string-keyed dicts
(association lists in insertion order, keys unique in real templates). -/
inductive Val where
  | null : Val
  | bool (b : Bool) : Val
  | int (n : Int) : Val
  | str (s : String) : Val
  | list (xs : List Val) : Val
  | dict (kvs : List (String × Val)) : Val

/-- The Python exceptions the rule code can raise. -/
inductive PyError where
  | attributeError : PyError
  | typeError : PyError
  | keyError : PyError
  | indexError : PyError
deriving DecidableEq

/-- Result of running a fragment of Python: a value or a raised exception. -/
abbrev PyM (α : Type) := Except PyError α

/-- The apostrophe character, used by Python string formatting below. -/
def apos : String := String.singleton (Char.ofNat 39)

mutual

/-- CPython `repr` of a value (container quoting approximated: inner
quote characters are not escaped, which no template in scope contains). -/
def pyRepr : Val → String
  | Val.null => "None"
  | Val.bool true => "True"
  | Val.bool false => "False"
  | Val.int n => toString n
  | Val.str s => apos ++ s ++ apos
  | Val.list xs => "[" ++ pyReprSeq xs ++ "]"
  | Val.dict kvs => "\x7b" ++ pyReprPairs kvs ++ "\x7d"

/-- `repr` of list elements, comma separated. -/
def pyReprSeq : List Val → String
  | [] => ""
  | [x] => pyRepr x
  | x :: y :: rest => pyRepr x ++ ", " ++ pyReprSeq (y :: rest)

/-- `repr` of dict entries, comma separated. -/
def pyReprPairs : List (String × Val) → String
  | [] => ""
  | [kv] => apos ++ kv.1 ++ apos ++ ": " ++ pyRepr kv.2
  | kv :: kv2 :: rest =>
      apos ++ kv.1 ++ apos ++ ": " ++ pyRepr kv.2 ++ ", " ++ pyReprPairs (kv2 :: rest)

end

/-- CPython `str()` as used by `str.format`: identity on strings,
`repr`-like on everything else. -/
def pyStr : Val → String
  | Val.str s => s
  | v => pyRepr v

/-- Python `v.get(k, d)`: default-carrying dictionary lookup; raises
`AttributeError` when the receiver is not a dict (e.g. `None.get`). -/
def pyGetD (v : Val) (k : String) (d : Val) : PyM Val :=
  match v with
  | Val.dict kvs => Except.ok ((kvs.lookup k).getD d)
  | _ => Except.error PyError.attributeError

/-- Python `v.get(k)`: missing keys yield `None`. -/
def pyGet (v : Val) (k : String) : PyM Val :=
  pyGetD v k Val.null

/-- Python `v[k]` with a string key: `KeyError` on a dict without the
key, `TypeError` on every non-dict receiver. -/
def pyIndexStr (v : Val) (k : String) : PyM Val :=
  match v with
  | Val.dict kvs =>
      match kvs.lookup k with
      | some x => Except.ok x
      | none => Except.error PyError.keyError
  | _ => Except.error PyError.typeError

/-- Python `v[i]` with a non-negative integer: list/str indexing with
`IndexError` out of range, `KeyError` on dicts (no such key),
`TypeError` otherwise. -/
def pyIndexNat (v : Val) (i : Nat) : PyM Val :=
  match v with
  | Val.list xs =>
      match xs.get? i with
      | some x => Except.ok x
      | none => Except.error PyError.indexError
  | Val.str s =>
      match s.data.get? i with
      | some c => Except.ok (Val.str (String.mk [c]))
      | none => Except.error PyError.indexError
  | Val.dict _ => Except.error PyError.keyError
  | _ => Except.error PyError.typeError

/-- Python `for x in v`: lists yield elements, dicts yield keys,
strings yield one-character strings, anything else raises `TypeError`. -/
def pyIter (v : Val) : PyM (List Val) :=
  match v with
  | Val.list xs => Except.ok xs
  | Val.dict kvs => Except.ok (kvs.map (fun kv => Val.str kv.1))
  | Val.str s => Except.ok (s.data.map (fun c => Val.str (String.mk [c])))
  | _ => Except.error PyError.typeError

/-- Is `needle` a prefix of `hay` (over character lists)? -/
def listPrefixQ : List Char → List Char → Bool
  | [], _ => true
  | _ :: _, [] => false
  | a :: as, b :: bs => a == b && listPrefixQ as bs

/-- Is `needle` a contiguous substring of `hay`? -/
def listInfixQ (needle : List Char) : List Char → Bool
  | [] => listPrefixQ needle []
  | c :: rest => listPrefixQ needle (c :: rest) || listInfixQ needle rest

/-- Python `k in v`: key membership on dicts, element equality on lists,
substring test on strings, `TypeError` otherwise (e.g. `k in None`). -/
def pyContainsStr (v : Val) (k : String) : PyM Bool :=
  match v with
  | Val.dict kvs => Except.ok (kvs.any (fun kv => kv.1 == k))
  | Val.list xs =>
      Except.ok (xs.any (fun x => match x with | Val.str s => s == k | _ => false))
  | Val.str s => Except.ok (listInfixQ k.data s.data)
  | _ => Except.error PyError.typeError

/-- A violation reported by a rule: a path into the template and a
message, mirroring the host linter RuleMatch objects built here. -/
structure RuleMatch where
  path : List String
  message : String
deriving DecidableEq

/-- The template model handed to a rule by the host linter: the
Parameters section and the Resources section, each a dict. -/
structure Template where
  parameters : List (String × Val)
  resources : List (String × Val)

/-- The declared resource type of a resource body, when it is a dict
with a string-valued Type entry. -/
def resType (v : Val) : Option String :=
  match v with
  | Val.dict kvs =>
      match kvs.lookup "Type" with
      | some (Val.str s) => some s
      | _ => none
  | _ => none

/-- Host-linter `cfn.get_resources(ty)`: the resources whose body is a
dict whose Type equals `ty`, in template order. -/
def get_resources (t : Template) (ty : String) : List (String × Val) :=
  t.resources.filter (fun kv => resType kv.2 == some ty)

/-- The expected Lambda runtime checked by `Python38Rule`. -/
def runtime38 : String := "python3.8"

/-- The formatted `Python38Rule` message for a given Runtime value. -/
def py38Msg (runtime : Val) : String :=
  "Function is using " ++ pyStr runtime ++ " runtime instead of " ++ runtime38

/-- The formatted `LambdaLogGroupRule` message. -/
def lgMsg (f : String) : String :=
  "Function " ++ f ++ " does not have a corresponding log group"

/-- The formatted `LambdaESMDestinationConfig` message. -/
def esmMsg (k : String) : String :=
  "Event Source Mapping " ++ k ++
    " does not have a DestinationConfig with OnFailure destination"

/-- The formatted `LambdaRuleInvokeConfig` message. -/
def ruleMsg (k : String) : String :=
  "Rule " ++ k ++
    " does not have a corresponding Event Invoke Config with OnFailure destination"

/-- The formatted `MandatoryParametersRule` message, with the quoting
done by `str.format` of the pattern in the source. -/
def mpMsg (p : String) : String :=
  "Missing parameter " ++ apos ++ p ++ apos

/-- Body of the `Python38Rule.match` loop for one Lambda function
resource: `value.get("Properties").get("Runtime")` compared against the
runtime string, with the violation message formatting that value. -/
def py38Check (kv : String × Val) : PyM (List RuleMatch) := do
  let props ← pyGet kv.2 "Properties"
  let runtime ← pyGet props "Runtime"
  if (match runtime with | Val.str s => s == runtime38 | _ => false) then
    return []
  else
    return [⟨["Resources", kv.1], py38Msg runtime⟩]

/-- The `Python38Rule.match` loop over the Lambda function resources. -/
def py38Go : List (String × Val) → PyM (List RuleMatch)
  | [] => return []
  | kv :: rest => do
      let here ← py38Check kv
      let more ← py38Go rest
      return here ++ more

/-- `Python38Rule.match`: one violation per `AWS::Lambda::Function`
whose Runtime is not the expected runtime string. -/
def Python38Rule_match (t : Template) : PyM (List RuleMatch) :=
  py38Go (get_resources t "AWS::Lambda::Function")

/-- Capture of the characters before the closing brace of a
substitution: the non-brace run must be terminated by a brace. -/
def takeToBrace : List Char → Option (List Char)
  | [] => none
  | c :: rest =>
      if c == Char.ofNat 125 then some []
      else (takeToBrace rest).map (fun cs => c :: cs)

/-- The first substitution variable in a string, as found by
`re.search` with the pattern dollar-brace, one or more non-brace
characters, brace: scan for a dollar immediately followed by an opening
brace, capture up to the first closing brace, require the capture
nonempty; on failure resume the scan one character further. -/
def findSub : List Char → Option (List Char)
  | [] => none
  | c :: rest =>
      if c == Char.ofNat 36 then
        match rest with
        | c2 :: rest2 =>
            if c2 == Char.ofNat 123 then
              match takeToBrace rest2 with
              | some (d :: ds) => some (d :: ds)
              | _ => findSub rest
            else findSub rest
        | [] => none
      else findSub rest

/-- One iteration of the log-group scan of `LambdaLogGroupRule.match`:
the function names recognised from one `AWS::Logs::LogGroup` resource by
searching its `Fn::Sub` LogGroupName for the first substitution variable
(the regex search on a non-string raises `TypeError`). -/
def logGroupKnown (v : Val) : PyM (List String) := do
  let props ← pyGet v "Properties"
  let has ← pyContainsStr props "LogGroupName"
  if has then do
    let lgn ← pyGet props "LogGroupName"
    match lgn with
    | Val.dict kvs =>
        match kvs.lookup "Fn::Sub" with
        | some (Val.str s) =>
            return (match findSub s.data with
                    | some cs => [String.mk cs]
                    | none => [])
        | some _ => Except.error PyError.typeError
        | none => return []
    | _ => return []
  else
    return []

/-- The log-group scan over all `AWS::Logs::LogGroup` resources. -/
def knownGo : List (String × Val) → PyM (List String)
  | [] => return []
  | kv :: rest => do
      let here ← logGroupKnown kv.2
      let more ← knownGo rest
      return here ++ more

/-- `LambdaLogGroupRule.match`: one violation per Lambda function whose
logical ID is not among the names recognised from the log groups. -/
def LambdaLogGroupRule_match (t : Template) : PyM (List RuleMatch) := do
  let functions := get_resources t "AWS::Lambda::Function"
  let log_groups := get_resources t "AWS::Logs::LogGroup"
  let known ← knownGo log_groups
  return ((functions.map Prod.fst).filter (fun f => !known.contains f)).map
    (fun f => ⟨["Resources", f], lgMsg f⟩)

/-- Body of the `LambdaESMDestinationConfig.match` loop for one
`AWS::Lambda::EventSourceMapping` resource: the defaulted lookup
`Properties.DestinationConfig.OnFailure` compared against `None`. -/
def esmCheck (kv : String × Val) : PyM (List RuleMatch) := do
  let props ← pyGetD kv.2 "Properties" (Val.dict [])
  let dc ← pyGetD props "DestinationConfig" (Val.dict [])
  let onf ← pyGetD dc "OnFailure" Val.null
  match onf with
  | Val.null =>
      return [⟨["Resources", kv.1], esmMsg kv.1⟩]
  | _ => return []

/-- The `LambdaESMDestinationConfig.match` loop. -/
def esmGo : List (String × Val) → PyM (List RuleMatch)
  | [] => return []
  | kv :: rest => do
      let here ← esmCheck kv
      let more ← esmGo rest
      return here ++ more

/-- `LambdaESMDestinationConfig.match`. -/
def LambdaESMDestinationConfig_match (t : Template) : PyM (List RuleMatch) :=
  esmGo (get_resources t "AWS::Lambda::EventSourceMapping")

/-- One iteration of the invoke-config scan of
`LambdaRuleInvokeConfig.match`: when the defaulted OnFailure lookup is
not `None`, the value of `resource["Properties"]["FunctionName"]["Ref"]`
(plain subscripts, so missing keys or non-dict values raise). -/
def icCheck (v : Val) : PyM (List Val) := do
  let props ← pyGetD v "Properties" (Val.dict [])
  let dc ← pyGetD props "DestinationConfig" (Val.dict [])
  let onf ← pyGetD dc "OnFailure" Val.null
  match onf with
  | Val.null => return []
  | _ => do
      let p ← pyIndexStr v "Properties"
      let fn ← pyIndexStr p "FunctionName"
      let r ← pyIndexStr fn "Ref"
      return [r]

/-- The invoke-config scan over the `AWS::Lambda::EventInvokeConfig`
resource bodies. -/
def icGo : List Val → PyM (List Val)
  | [] => return []
  | v :: rest => do
      let here ← icCheck v
      let more ← icGo rest
      return here ++ more

/-- Body of the target loop of `LambdaRuleInvokeConfig.match` for one
target of an `AWS::Events::Rule`: skip targets whose defaulted
`Arn.Fn::GetAtt` lookup is `None`; otherwise take element 0 of the
subscripted `Fn::GetAtt` value, test membership in the function-name
dict keys (unhashable values raise `TypeError`), and report the rule
when that function has no covering invoke config. -/
def targetCheck (fnames : List String) (icfns : List Val) (key : String)
    (target : Val) : PyM (List RuleMatch) := do
  let arn ← pyGetD target "Arn" (Val.dict [])
  let ga ← pyGet arn "Fn::GetAtt"
  match ga with
  | Val.null => return []
  | _ => do
      let arn2 ← pyIndexStr target "Arn"
      let ga2 ← pyIndexStr arn2 "Fn::GetAtt"
      let f0 ← pyIndexNat ga2 0
      match f0 with
      | Val.list _ => Except.error PyError.typeError
      | Val.dict _ => Except.error PyError.typeError
      | Val.str f =>
          if fnames.contains f then
            if icfns.any (fun x => match x with | Val.str s => s == f | _ => false) then
              return []
            else
              return [⟨["Resources", key], ruleMsg key⟩]
          else return []
      | _ => return []

/-- The target loop over the targets of one rule. -/
def targetsGo (fnames : List String) (icfns : List Val) (key : String) :
    List Val → PyM (List RuleMatch)
  | [] => return []
  | tg :: rest => do
      let here ← targetCheck fnames icfns key tg
      let more ← targetsGo fnames icfns key rest
      return here ++ more

/-- Body of the rule loop of `LambdaRuleInvokeConfig.match` for one
`AWS::Events::Rule` resource: iterate its defaulted Targets value. -/
def ruleCheck (fnames : List String) (icfns : List Val) (kv : String × Val) :
    PyM (List RuleMatch) := do
  let props ← pyGetD kv.2 "Properties" (Val.dict [])
  let ts ← pyGetD props "Targets" (Val.list [])
  let tgs ← pyIter ts
  targetsGo fnames icfns kv.1 tgs

/-- The rule loop over the `AWS::Events::Rule` resources. -/
def rulesGo (fnames : List String) (icfns : List Val) :
    List (String × Val) → PyM (List RuleMatch)
  | [] => return []
  | kv :: rest => do
      let here ← ruleCheck fnames icfns kv
      let more ← rulesGo fnames icfns rest
      return here ++ more

/-- `LambdaRuleInvokeConfig.match`. -/
def LambdaRuleInvokeConfig_match (t : Template) : PyM (List RuleMatch) := do
  let fnames := (get_resources t "AWS::Lambda::Function").map Prod.fst
  let icfns ← icGo ((get_resources t "AWS::Lambda::EventInvokeConfig").map Prod.snd)
  rulesGo fnames icfns (get_resources t "AWS::Events::Rule")

/-- The class attribute `_mandatory_parameters` of
`MandatoryParametersRule`. -/
def mandatory_parameters : List String := ["Environment"]

/-- `MandatoryParametersRule.match` with the class attribute threaded
explicitly: the body deep-copies the class list, removes each parameter
key found in the template from the copy, and reports the remainder; the
class attribute is returned unchanged because all removals act on the
deep copy. -/
def MandatoryParametersRule_matchSt (cls : List String) (t : Template) :
    List RuleMatch × List String :=
  let working := cls
  let remaining := (t.parameters.map Prod.fst).foldl
    (fun acc key => if acc.contains key then acc.erase key else acc) working
  (remaining.map (fun p => ⟨["Parameters"], mpMsg p⟩), cls)

/-- `MandatoryParametersRule.match` on the class attribute as declared. -/
def MandatoryParametersRule_match (t : Template) : List RuleMatch :=
  (MandatoryParametersRule_matchSt mandatory_parameters t).1

/-!
Pure characterizations.  For templates that are well formed in the sense
made precise below, each rule completes without an exception and its
result is a pure function of the template, defined next with total,
default-carrying lookups.
-/

/-- Total defaulted lookup: the dict entry for `k`, or `d` when the key
is missing or the receiver is not a dict. -/
def dGet (v : Val) (k : String) (d : Val) : Val :=
  match v with
  | Val.dict kvs => (kvs.lookup k).getD d
  | _ => d

/-- The Runtime value of a Lambda function resource body, `None` when
any step of the lookup is missing. -/
def py38Runtime (v : Val) : Val :=
  dGet (dGet v "Properties" Val.null) "Runtime" Val.null

/-- Does the Runtime value equal the expected runtime string? -/
def isRt38 (v : Val) : Bool :=
  match py38Runtime v with
  | Val.str s => s == runtime38
  | _ => false

/-- The violation `Python38Rule` produces for one function entry. -/
def py38EntrySpec (kv : String × Val) : Option RuleMatch :=
  if isRt38 kv.2 then none
  else some ⟨["Resources", kv.1], py38Msg (py38Runtime kv.2)⟩

/-- The full `Python38Rule` violation list. -/
def py38Spec (t : Template) : List RuleMatch :=
  (get_resources t "AWS::Lambda::Function").filterMap py38EntrySpec

/-- Well-formedness needed by `Python38Rule.match`: each Lambda function
resource carries a dict-valued Properties entry (the source reads
`value.get("Properties").get("Runtime")` with no default, so a missing
or non-dict Properties raises `AttributeError`). -/
def py38EntryWf (v : Val) : Bool :=
  match v with
  | Val.dict kvs =>
      match kvs.lookup "Properties" with
      | some (Val.dict _) => true
      | _ => false
  | _ => false

/-- `Python38Rule` well-formedness over a template. -/
def wfPy38 (t : Template) : Bool :=
  (get_resources t "AWS::Lambda::Function").all (fun kv => py38EntryWf kv.2)

/-- The function names one log group contributes to the `known` list:
the first substitution variable of a string `Fn::Sub` LogGroupName. -/
def lgKnownSpec (v : Val) : List String :=
  match dGet v "Properties" Val.null with
  | Val.dict props =>
      match props.lookup "LogGroupName" with
      | some (Val.dict lgn) =>
          match lgn.lookup "Fn::Sub" with
          | some (Val.str s) =>
              match findSub s.data with
              | some cs => [String.mk cs]
              | none => []
          | _ => []
      | _ => []
  | _ => []

/-- The `known` list of `LambdaLogGroupRule.match`. -/
def knownSpec (t : Template) : List String :=
  ((get_resources t "AWS::Logs::LogGroup").map (fun kv => lgKnownSpec kv.2)).flatten

/-- The full `LambdaLogGroupRule` violation list. -/
def lgSpec (t : Template) : List RuleMatch :=
  (((get_resources t "AWS::Lambda::Function").map Prod.fst).filter
    (fun f => !(knownSpec t).contains f)).map
    (fun f => ⟨["Resources", f], lgMsg f⟩)

/-- Well-formedness needed by `LambdaLogGroupRule.match`: each log
group has a dict-valued Properties (the source tests membership in
`resource.get("Properties")` with no default), and any `Fn::Sub` under a
dict-valued LogGroupName is a string (it is fed to `re.search`). -/
def lgEntryWf (v : Val) : Bool :=
  match v with
  | Val.dict kvs =>
      match kvs.lookup "Properties" with
      | some (Val.dict props) =>
          match props.lookup "LogGroupName" with
          | some (Val.dict lgn) =>
              match lgn.lookup "Fn::Sub" with
              | some (Val.str _) => true
              | none => true
              | some _ => false
          | _ => true
      | _ => false
  | _ => false

/-- `LambdaLogGroupRule` well-formedness over a template. -/
def wfLogGroup (t : Template) : Bool :=
  (get_resources t "AWS::Logs::LogGroup").all (fun kv => lgEntryWf kv.2)

/-- Is the defaulted `Properties.DestinationConfig.OnFailure` lookup of
a resource body `None`?  This is the test shared by the event source
mapping rule and the invoke-config scan. -/
def onFailureNull (v : Val) : Bool :=
  match dGet (dGet (dGet v "Properties" (Val.dict []))
      "DestinationConfig" (Val.dict [])) "OnFailure" Val.null with
  | Val.null => true
  | _ => false

/-- The violation `LambdaESMDestinationConfig` produces for one event
source mapping entry. -/
def esmEntrySpec (kv : String × Val) : Option RuleMatch :=
  if onFailureNull kv.2 then some ⟨["Resources", kv.1], esmMsg kv.1⟩ else none

/-- The full `LambdaESMDestinationConfig` violation list. -/
def esmSpec (t : Template) : List RuleMatch :=
  (get_resources t "AWS::Lambda::EventSourceMapping").filterMap esmEntrySpec

/-- Well-formedness needed by `LambdaESMDestinationConfig.match`: on
each event source mapping, a present Properties is a dict and a present
DestinationConfig is a dict (the defaults in the source only cover
missing keys, not non-dict values). -/
def esmEntryWf (v : Val) : Bool :=
  match v with
  | Val.dict kvs =>
      match kvs.lookup "Properties" with
      | none => true
      | some (Val.dict props) =>
          match props.lookup "DestinationConfig" with
          | none => true
          | some (Val.dict _) => true
          | some _ => false
      | some _ => false
  | _ => false

/-- `LambdaESMDestinationConfig` well-formedness over a template. -/
def wfESM (t : Template) : Bool :=
  (get_resources t "AWS::Lambda::EventSourceMapping").all (fun kv => esmEntryWf kv.2)

/-- The function names (as raw values) contributed by one invoke config
to `invoke_config_functions`. -/
def icContrib (v : Val) : List Val :=
  if onFailureNull v then []
  else [dGet (dGet (dGet v "Properties" Val.null) "FunctionName" Val.null)
          "Ref" Val.null]

/-- The `invoke_config_functions` list of `LambdaRuleInvokeConfig`. -/
def icfnsSpec (t : Template) : List Val :=
  (((get_resources t "AWS::Lambda::EventInvokeConfig").map Prod.snd).map icContrib).flatten

/-- Well-formedness needed by the invoke-config scan: defaulted lookups
land on dicts, and when OnFailure is not `None` the plain subscripts
`resource["Properties"]["FunctionName"]["Ref"]` all succeed. -/
def icEntryWf (v : Val) : Bool :=
  match v with
  | Val.dict kvs =>
      match kvs.lookup "Properties" with
      | none => true
      | some (Val.dict props) =>
          match props.lookup "DestinationConfig" with
          | none => true
          | some (Val.dict dc) =>
              match (dc.lookup "OnFailure").getD Val.null with
              | Val.null => true
              | _ =>
                  match props.lookup "FunctionName" with
                  | some (Val.dict fnm) => (fnm.lookup "Ref").isSome
                  | _ => false
          | some _ => false
      | some _ => false
  | _ => false

/-- The defaulted `Arn.Fn::GetAtt` lookup on a rule target. -/
def gaOf (target : Val) : Val :=
  dGet (dGet target "Arn" (Val.dict [])) "Fn::GetAtt" Val.null

/-- Element 0 of a GetAtt value as the source subscripts it: the first
list element, or the first character of a string. -/
def gaHead (v : Val) : Val :=
  match v with
  | Val.list (x :: _) => x
  | Val.str s =>
      match s.data with
      | c :: _ => Val.str (String.mk [c])
      | [] => Val.null
  | _ => Val.null

/-- Is the string `f` among the values `xs` (Python list membership of a
string against arbitrary values)? -/
def isStrIn (f : String) (xs : List Val) : Bool :=
  xs.any (fun x => match x with | Val.str s => s == f | _ => false)

/-- Is a value the Python `None`? -/
def isNullV : Val → Bool
  | Val.null => true
  | _ => false

/-- Does one rule target trigger a violation: its GetAtt is present,
its element 0 names a declared function, and that function has no
covering invoke config. -/
def targetViol (fnames : List String) (icfns : List Val) (target : Val) : Bool :=
  if isNullV (gaOf target) then false
  else
    match gaHead (gaOf target) with
    | Val.str f => fnames.contains f && !isStrIn f icfns
    | _ => false

/-- The violations one target contributes for rule `key`. -/
def targetSpec (fnames : List String) (icfns : List Val) (key : String)
    (target : Val) : List RuleMatch :=
  if targetViol fnames icfns target then [⟨["Resources", key], ruleMsg key⟩] else []

/-- The target sequence the source iterates for one rule body. -/
def targetsOf (v : Val) : List Val :=
  match dGet (dGet v "Properties" (Val.dict [])) "Targets" (Val.list []) with
  | Val.list ts => ts
  | Val.dict kvs => kvs.map (fun kv => Val.str kv.1)
  | Val.str s => s.data.map (fun c => Val.str (String.mk [c]))
  | _ => []

/-- The violations one `AWS::Events::Rule` entry contributes. -/
def ruleSpecEntry (fnames : List String) (icfns : List Val) (kv : String × Val) :
    List RuleMatch :=
  ((targetsOf kv.2).map (targetSpec fnames icfns kv.1)).flatten

/-- The declared Lambda function logical IDs. -/
def fnNames (t : Template) : List String :=
  (get_resources t "AWS::Lambda::Function").map Prod.fst

/-- The full `LambdaRuleInvokeConfig` violation list. -/
def invokeSpec (t : Template) : List RuleMatch :=
  ((get_resources t "AWS::Events::Rule").map
    (ruleSpecEntry (fnNames t) (icfnsSpec t))).flatten

/-- Well-formedness of one rule target: lookups land on dicts, and a
present GetAtt value supports the subscript `[0]` and a hashable
membership test (a nonempty list with a non-container head, or a
nonempty string). -/
def targetWf (target : Val) : Bool :=
  match target with
  | Val.dict tm =>
      match tm.lookup "Arn" with
      | none => true
      | some (Val.dict am) =>
          match (am.lookup "Fn::GetAtt").getD Val.null with
          | Val.null => true
          | Val.list (Val.list _ :: _) => false
          | Val.list (Val.dict _ :: _) => false
          | Val.list (_ :: _) => true
          | Val.list [] => false
          | Val.str s => !s.data.isEmpty
          | _ => false
      | some _ => false
  | _ => false

/-- Well-formedness of one `AWS::Events::Rule` body: a present Targets
value is a list of well-formed targets. -/
def ruleEntryWf (v : Val) : Bool :=
  match v with
  | Val.dict kvs =>
      match kvs.lookup "Properties" with
      | none => true
      | some (Val.dict props) =>
          match props.lookup "Targets" with
          | none => true
          | some (Val.list ts) => ts.all targetWf
          | some _ => false
      | some _ => false
  | _ => false

/-- `LambdaRuleInvokeConfig` well-formedness over a template. -/
def wfInvoke (t : Template) : Bool :=
  (get_resources t "AWS::Lambda::EventInvokeConfig").all (fun kv => icEntryWf kv.2) &&
  (get_resources t "AWS::Events::Rule").all (fun kv => ruleEntryWf kv.2)

/-- Well-formedness for all four resource-scanning rules at once. -/
def wfAll (t : Template) : Bool :=
  wfPy38 t && wfLogGroup t && wfESM t && wfInvoke t

/-- Does this function body have a dict Properties with no Runtime
key?  Used to state the missing-runtime claim. -/
def py38MissingRuntime (v : Val) : Bool :=
  match dGet v "Properties" Val.null with
  | Val.dict ps => (ps.lookup "Runtime").isNone
  | _ => false

/-!
Concrete resource bodies and templates used as counterexamples and as
witnesses below.
-/

/-- A Lambda function on the expected runtime. -/
def fnOKv : Val :=
  Val.dict [("Type", Val.str "AWS::Lambda::Function"),
    ("Properties", Val.dict [("Runtime", Val.str "python3.8")])]

/-- A Lambda function on an old runtime. -/
def fnOldv : Val :=
  Val.dict [("Type", Val.str "AWS::Lambda::Function"),
    ("Properties", Val.dict [("Runtime", Val.str "python2.7")])]

/-- A Lambda function resource with no Properties entry at all. -/
def fnNoPropsv : Val :=
  Val.dict [("Type", Val.str "AWS::Lambda::Function")]

/-- A Lambda function whose Properties dict lacks a Runtime key. -/
def fnNoRtv : Val :=
  Val.dict [("Type", Val.str "AWS::Lambda::Function"),
    ("Properties", Val.dict [])]

/-- A log group whose name substitutes the given function. -/
def lgOKFor (f : String) : Val :=
  Val.dict [("Type", Val.str "AWS::Logs::LogGroup"),
    ("Properties", Val.dict [("LogGroupName",
      Val.dict [("Fn::Sub", Val.str ("/aws/lambda/$\x7b" ++ f ++ "\x7d"))])])]

/-- A log group resource with no Properties entry. -/
def lgNoPropsv : Val :=
  Val.dict [("Type", Val.str "AWS::Logs::LogGroup")]

/-- An event source mapping with an OnFailure destination. -/
def esmOKv : Val :=
  Val.dict [("Type", Val.str "AWS::Lambda::EventSourceMapping"),
    ("Properties", Val.dict [("DestinationConfig",
      Val.dict [("OnFailure",
        Val.dict [("Destination", Val.str "arn:aws:sqs:us-east-1:111111111111:dlq")])])])]

/-- An event source mapping without a DestinationConfig. -/
def esmBadv : Val :=
  Val.dict [("Type", Val.str "AWS::Lambda::EventSourceMapping"),
    ("Properties", Val.dict [])]

/-- An event source mapping whose Properties entry is an explicit null. -/
def esmNullPropsv : Val :=
  Val.dict [("Type", Val.str "AWS::Lambda::EventSourceMapping"),
    ("Properties", Val.null)]

/-- An events rule with one target pointing at the given function by
GetAtt. -/
def ruleToFn (f : String) : Val :=
  Val.dict [("Type", Val.str "AWS::Events::Rule"),
    ("Properties", Val.dict [("Targets", Val.list [Val.dict [("Arn",
      Val.dict [("Fn::GetAtt", Val.list [Val.str f, Val.str "Arn"])])]])])]

/-- An events rule with one target whose Arn is a plain string. -/
def ruleStrArnv : Val :=
  Val.dict [("Type", Val.str "AWS::Events::Rule"),
    ("Properties", Val.dict [("Targets", Val.list [Val.dict [("Arn",
      Val.str "arn:aws:lambda:us-east-1:111111111111:function:F")]])])]

/-- An events rule with one target whose Arn is a Ref mapping. -/
def ruleRefArnv : Val :=
  Val.dict [("Type", Val.str "AWS::Events::Rule"),
    ("Properties", Val.dict [("Targets", Val.list [Val.dict [("Arn",
      Val.dict [("Ref", Val.str "F")])]])])]

/-- An invoke config covering the given function by Ref. -/
def eicRefFor (f : String) : Val :=
  Val.dict [("Type", Val.str "AWS::Lambda::EventInvokeConfig"),
    ("Properties", Val.dict [("DestinationConfig",
      Val.dict [("OnFailure",
        Val.dict [("Destination", Val.str "arn:aws:sqs:us-east-1:111111111111:dlq")])]),
      ("FunctionName", Val.dict [("Ref", Val.str f)])])]

/-- An invoke config whose FunctionName is a plain string, not a Ref
mapping. -/
def eicStrFnv : Val :=
  Val.dict [("Type", Val.str "AWS::Lambda::EventInvokeConfig"),
    ("Properties", Val.dict [("DestinationConfig",
      Val.dict [("OnFailure",
        Val.dict [("Destination", Val.str "arn:aws:sqs:us-east-1:111111111111:dlq")])]),
      ("FunctionName", Val.str "F")])]

/-- Witness template: a compliant and a non-compliant function. -/
def tC1w : Template := ⟨[], [("F", fnOKv), ("G", fnOldv)]⟩

/-- Counterexample template: a function without Properties next to a
function on an old runtime. -/
def tC1c : Template := ⟨[], [("A", fnNoPropsv), ("B", fnOldv)]⟩

/-- Counterexample template: a single function without Properties. -/
def tC2c : Template := ⟨[], [("A", fnNoPropsv)]⟩

/-- Witness template exercising all five resource kinds, well formed. -/
def tC2w : Template :=
  ⟨[("Environment", Val.str "dev")],
   [("F", fnOKv), ("LG", lgOKFor "F"), ("ESM", esmOKv),
    ("R", ruleToFn "F"), ("EIC", eicRefFor "F")]⟩

/-- Counterexample template: an invoke config with an OnFailure but a
string FunctionName. -/
def tC3c : Template := ⟨[], [("F", fnOKv), ("R", ruleToFn "F"), ("EIC", eicStrFnv)]⟩

/-- Witness template: a rule pointing at a function with no invoke
config at all. -/
def tC3w : Template := ⟨[], [("F", fnOKv), ("R", ruleToFn "F")]⟩

/-- Counterexample template: a log group without Properties next to a
function. -/
def tC4c : Template := ⟨[], [("F", fnOKv), ("LG", lgNoPropsv)]⟩

/-- Witness template: one covered and one uncovered function. -/
def tC4w : Template := ⟨[], [("F", fnOKv), ("G", fnOldv), ("LG", lgOKFor "F")]⟩

/-- Counterexample template: an event source mapping with a null
Properties entry. -/
def tC5c : Template := ⟨[], [("E", esmNullPropsv)]⟩

/-- Witness template: one covered and one uncovered mapping. -/
def tC5w : Template := ⟨[], [("E1", esmOKv), ("E2", esmBadv)]⟩

/-- Witness template: a function whose Properties lack Runtime. -/
def tC9w : Template := ⟨[], [("F", fnNoRtv)]⟩

/-- Counterexample template: a function without a Runtime key next to a
function without Properties. -/
def tC9c : Template := ⟨[], [("A", fnNoRtv), ("B", fnNoPropsv)]⟩

/-- Counterexample template: a rule target with a plain string Arn. -/
def tC10c : Template := ⟨[], [("F", fnOKv), ("R", ruleStrArnv)]⟩

/-- Witness template: a rule target whose Arn is a Ref, which the rule
skips. -/
def tC10w : Template := ⟨[], [("F", fnOKv), ("R", ruleRefArnv)]⟩

/-!
Bridging lemmas between the exception-level rule bodies and the pure
characterizations.
-/

/-- Bind on an ok Python result. -/
@[simp] theorem pym_bind_ok {α β : Type} (a : α) (f : α → PyM β) :
    (Except.ok a : PyM α) >>= f = f a := rfl

/-- Bind on a raised Python exception. -/
@[simp] theorem pym_bind_err {α β : Type} (e : PyError) (f : α → PyM β) :
    (Except.error e : PyM α) >>= f = Except.error e := rfl

/-- Pure for `PyM` is ok. -/
@[simp] theorem pym_pure {α : Type} (a : α) : (pure a : PyM α) = Except.ok a := rfl

/-- A key occurs among the entries iff the lookup succeeds. -/
theorem any_key_eq_lookup_isSome (k : String) (props : List (String × Val)) :
    (props.any (fun kv => kv.1 == k)) = (props.lookup k).isSome := by
  induction props with
  | nil => rfl
  | cons a es ih =>
      obtain ⟨ka, va⟩ := a
      by_cases h : k = ka
      · subst h
        simp [List.lookup]
      · have h1 : (ka == k) = false := beq_eq_false_iff_ne.mpr (Ne.symm h)
        have h2 : (k == ka) = false := beq_eq_false_iff_ne.mpr h
        simp [List.lookup, h1, h2, ih]

/-- `Python38Rule` body on one well-formed function entry. -/
theorem py38Check_eq (k : String) (v : Val) (h : py38EntryWf v = true) :
    py38Check (k, v) = Except.ok (py38EntrySpec (k, v)).toList := by
  cases v with
  | dict kvs =>
      rcases hp : kvs.lookup "Properties" with _ | p
      · simp [py38EntryWf, hp] at h
      · cases p with
        | dict props =>
            simp only [py38Check, py38EntrySpec, isRt38, py38Runtime, pyGet, pyGetD,
              dGet, hp, Option.getD_some, pym_bind_ok]
            split
            · simp
            · simp
        | null => simp [py38EntryWf, hp] at h
        | bool b => simp [py38EntryWf, hp] at h
        | int n => simp [py38EntryWf, hp] at h
        | str s => simp [py38EntryWf, hp] at h
        | list xs => simp [py38EntryWf, hp] at h
  | null => simp [py38EntryWf] at h
  | bool b => simp [py38EntryWf] at h
  | int n => simp [py38EntryWf] at h
  | str s => simp [py38EntryWf] at h
  | list xs => simp [py38EntryWf] at h

/-- The `Python38Rule` loop on a well-formed entry list. -/
theorem py38Go_eq (rs : List (String × Val))
    (h : rs.all (fun kv => py38EntryWf kv.2) = true) :
    py38Go rs = Except.ok (rs.filterMap py38EntrySpec) := by
  induction rs with
  | nil => rfl
  | cons kv rest ih =>
      simp only [List.all_cons, Bool.and_eq_true] at h
      obtain ⟨h1, h2⟩ := h
      obtain ⟨k, v⟩ := kv
      simp only [py38Go, py38Check_eq k v h1, ih h2, pym_bind_ok, pym_pure,
        List.filterMap_cons]
      cases hs : py38EntrySpec (k, v) <;> simp

/-- `Python38Rule.match` on a well-formed template is exception free
and equals its pure characterization. -/
theorem Python38Rule_match_eq (t : Template) (h : wfPy38 t = true) :
    Python38Rule_match t = Except.ok (py38Spec t) := by
  exact py38Go_eq _ h

/-- The log-group scan body on one well-formed log group body. -/
theorem logGroupKnown_eq (v : Val) (h : lgEntryWf v = true) :
    logGroupKnown v = Except.ok (lgKnownSpec v) := by
  cases v with
  | dict kvs =>
      rcases hp : kvs.lookup "Properties" with _ | p
      · simp [lgEntryWf, hp] at h
      · cases p with
        | dict props =>
            rcases hl : props.lookup "LogGroupName" with _ | x
            · simp [logGroupKnown, lgKnownSpec, pyGet, pyGetD, dGet, hp,
                pyContainsStr, any_key_eq_lookup_isSome, hl]
            · cases x with
              | dict lgn =>
                  rcases hs : lgn.lookup "Fn::Sub" with _ | sub
                  · simp [logGroupKnown, lgKnownSpec, pyGet, pyGetD, dGet, hp,
                      pyContainsStr, any_key_eq_lookup_isSome, hl, hs]
                  · cases sub with
                    | str s =>
                        simp [logGroupKnown, lgKnownSpec, pyGet, pyGetD, dGet, hp,
                          pyContainsStr, any_key_eq_lookup_isSome, hl, hs]
                    | null => simp [lgEntryWf, hp, hl, hs] at h
                    | bool b => simp [lgEntryWf, hp, hl, hs] at h
                    | int n => simp [lgEntryWf, hp, hl, hs] at h
                    | list xs => simp [lgEntryWf, hp, hl, hs] at h
                    | dict d => simp [lgEntryWf, hp, hl, hs] at h
              | null =>
                  simp [logGroupKnown, lgKnownSpec, pyGet, pyGetD, dGet, hp,
                    pyContainsStr, any_key_eq_lookup_isSome, hl]
              | bool b =>
                  simp [logGroupKnown, lgKnownSpec, pyGet, pyGetD, dGet, hp,
                    pyContainsStr, any_key_eq_lookup_isSome, hl]
              | int n =>
                  simp [logGroupKnown, lgKnownSpec, pyGet, pyGetD, dGet, hp,
                    pyContainsStr, any_key_eq_lookup_isSome, hl]
              | str s =>
                  simp [logGroupKnown, lgKnownSpec, pyGet, pyGetD, dGet, hp,
                    pyContainsStr, any_key_eq_lookup_isSome, hl]
              | list xs =>
                  simp [logGroupKnown, lgKnownSpec, pyGet, pyGetD, dGet, hp,
                    pyContainsStr, any_key_eq_lookup_isSome, hl]
        | null => simp [lgEntryWf, hp] at h
        | bool b => simp [lgEntryWf, hp] at h
        | int n => simp [lgEntryWf, hp] at h
        | str s => simp [lgEntryWf, hp] at h
        | list xs => simp [lgEntryWf, hp] at h
  | null => simp [lgEntryWf] at h
  | bool b => simp [lgEntryWf] at h
  | int n => simp [lgEntryWf] at h
  | str s => simp [lgEntryWf] at h
  | list xs => simp [lgEntryWf] at h

/-- The log-group scan on a well-formed entry list. -/
theorem knownGo_eq (rs : List (String × Val))
    (h : rs.all (fun kv => lgEntryWf kv.2) = true) :
    knownGo rs = Except.ok ((rs.map (fun kv => lgKnownSpec kv.2)).flatten) := by
  induction rs with
  | nil => rfl
  | cons kv rest ih =>
      simp only [List.all_cons, Bool.and_eq_true] at h
      obtain ⟨h1, h2⟩ := h
      simp [knownGo, logGroupKnown_eq kv.2 h1, ih h2]

/-- `LambdaLogGroupRule.match` on a well-formed template is exception
free and equals its pure characterization. -/
theorem LambdaLogGroupRule_match_eq (t : Template) (h : wfLogGroup t = true) :
    LambdaLogGroupRule_match t = Except.ok (lgSpec t) := by
  simp [LambdaLogGroupRule_match, knownGo_eq _ h, lgSpec, knownSpec, lgMsg]

/-- `LambdaESMDestinationConfig` body on one well-formed entry. -/
theorem esmCheck_eq (k : String) (v : Val) (h : esmEntryWf v = true) :
    esmCheck (k, v) = Except.ok (esmEntrySpec (k, v)).toList := by
  cases v with
  | dict kvs =>
      rcases hp : kvs.lookup "Properties" with _ | p
      · simp [esmCheck, esmEntrySpec, onFailureNull, pyGetD, dGet, hp, List.lookup]
      · cases p with
        | dict props =>
            rcases hd : props.lookup "DestinationConfig" with _ | d
            · simp [esmCheck, esmEntrySpec, onFailureNull, pyGetD, dGet, hp, hd,
                List.lookup]
            · cases d with
              | dict dc =>
                  cases ho : (dc.lookup "OnFailure").getD Val.null <;>
                    simp [esmCheck, esmEntrySpec, onFailureNull, pyGetD, dGet,
                      hp, hd, ho]
              | null => simp [esmEntryWf, hp, hd] at h
              | bool b => simp [esmEntryWf, hp, hd] at h
              | int n => simp [esmEntryWf, hp, hd] at h
              | str s => simp [esmEntryWf, hp, hd] at h
              | list xs => simp [esmEntryWf, hp, hd] at h
        | null => simp [esmEntryWf, hp] at h
        | bool b => simp [esmEntryWf, hp] at h
        | int n => simp [esmEntryWf, hp] at h
        | str s => simp [esmEntryWf, hp] at h
        | list xs => simp [esmEntryWf, hp] at h
  | null => simp [esmEntryWf] at h
  | bool b => simp [esmEntryWf] at h
  | int n => simp [esmEntryWf] at h
  | str s => simp [esmEntryWf] at h
  | list xs => simp [esmEntryWf] at h

/-- The `LambdaESMDestinationConfig` loop on a well-formed entry list. -/
theorem esmGo_eq (rs : List (String × Val))
    (h : rs.all (fun kv => esmEntryWf kv.2) = true) :
    esmGo rs = Except.ok (rs.filterMap esmEntrySpec) := by
  induction rs with
  | nil => rfl
  | cons kv rest ih =>
      simp only [List.all_cons, Bool.and_eq_true] at h
      obtain ⟨h1, h2⟩ := h
      obtain ⟨k, v⟩ := kv
      simp only [esmGo, esmCheck_eq k v h1, ih h2, pym_bind_ok, pym_pure,
        List.filterMap_cons]
      cases hs : esmEntrySpec (k, v) <;> simp

/-- `LambdaESMDestinationConfig.match` on a well-formed template is
exception free and equals its pure characterization. -/
theorem LambdaESMDestinationConfig_match_eq (t : Template) (h : wfESM t = true) :
    LambdaESMDestinationConfig_match t = Except.ok (esmSpec t) := by
  exact esmGo_eq _ h

/-- The invoke-config scan body on one well-formed invoke config. -/
theorem icCheck_eq (v : Val) (h : icEntryWf v = true) :
    icCheck v = Except.ok (icContrib v) := by
  cases v with
  | dict kvs =>
      rcases hp : kvs.lookup "Properties" with _ | p
      · simp [icCheck, icContrib, onFailureNull, pyGetD, dGet, hp, List.lookup]
      · cases p with
        | dict props =>
            rcases hd : props.lookup "DestinationConfig" with _ | d
            · simp [icCheck, icContrib, onFailureNull, pyGetD, dGet, hp, hd,
                List.lookup]
            · cases d with
              | dict dc =>
                  cases ho : (dc.lookup "OnFailure").getD Val.null
                  case null =>
                    simp [icCheck, icContrib, onFailureNull, pyGetD, dGet, hp, hd, ho]
                  all_goals {
                    rcases hf : props.lookup "FunctionName" with _ | fv
                    · simp [icEntryWf, hp, hd, ho, hf] at h
                    · cases fv with
                      | dict fnm =>
                          rcases hr : fnm.lookup "Ref" with _ | r
                          · simp [icEntryWf, hp, hd, ho, hf, hr] at h
                          · simp [icCheck, icContrib, onFailureNull, pyGetD,
                              pyIndexStr, dGet, hp, hd, ho, hf, hr]
                      | null => simp [icEntryWf, hp, hd, ho, hf] at h
                      | bool b => simp [icEntryWf, hp, hd, ho, hf] at h
                      | int n => simp [icEntryWf, hp, hd, ho, hf] at h
                      | str s => simp [icEntryWf, hp, hd, ho, hf] at h
                      | list xs => simp [icEntryWf, hp, hd, ho, hf] at h
                  }
              | null => simp [icEntryWf, hp, hd] at h
              | bool b => simp [icEntryWf, hp, hd] at h
              | int n => simp [icEntryWf, hp, hd] at h
              | str s => simp [icEntryWf, hp, hd] at h
              | list xs => simp [icEntryWf, hp, hd] at h
        | null => simp [icEntryWf, hp] at h
        | bool b => simp [icEntryWf, hp] at h
        | int n => simp [icEntryWf, hp] at h
        | str s => simp [icEntryWf, hp] at h
        | list xs => simp [icEntryWf, hp] at h
  | null => simp [icEntryWf] at h
  | bool b => simp [icEntryWf] at h
  | int n => simp [icEntryWf] at h
  | str s => simp [icEntryWf] at h
  | list xs => simp [icEntryWf] at h

/-- The invoke-config scan on a well-formed body list. -/
theorem icGo_eq (vs : List Val) (h : vs.all icEntryWf = true) :
    icGo vs = Except.ok ((vs.map icContrib).flatten) := by
  induction vs with
  | nil => rfl
  | cons v rest ih =>
      simp only [List.all_cons, Bool.and_eq_true] at h
      obtain ⟨h1, h2⟩ := h
      simp [icGo, icCheck_eq v h1, ih h2]

/-- The target loop body on one well-formed target. -/
theorem targetCheck_eq (fnames : List String) (icfns : List Val) (key : String)
    (target : Val) (h : targetWf target = true) :
    targetCheck fnames icfns key target =
      Except.ok (targetSpec fnames icfns key target) := by
  cases target with
  | dict tm =>
      rcases ha : tm.lookup "Arn" with _ | av
      · simp [targetCheck, targetSpec, targetViol, isNullV, gaOf, pyGet, pyGetD, dGet, ha,
          List.lookup]
      · cases av with
        | dict am =>
            rcases hg : am.lookup "Fn::GetAtt" with _ | gv
            · simp [targetCheck, targetSpec, targetViol, isNullV, gaOf, pyGet, pyGetD,
                dGet, ha, hg]
            · cases gv with
              | null =>
                  simp [targetCheck, targetSpec, targetViol, isNullV, gaOf, pyGet, pyGetD,
                    dGet, ha, hg]
              | list xs =>
                  cases xs with
                  | nil => simp [targetWf, ha, hg] at h
                  | cons x rest =>
                      cases x with
                      | str f =>
                          simp only [targetCheck, pyGet, pyGetD, dGet, ha, hg,
                            Option.getD_some, pym_bind_ok, pyIndexStr, pyIndexNat,
                            List.get?_cons_zero, targetSpec, targetViol, isNullV, gaOf,
                            gaHead, isStrIn]
                          cases hc : fnames.contains f <;>
                            cases hi : icfns.any
                              (fun x => match x with
                                | Val.str s => s == f | _ => false) <;>
                            simp [hc, hi]
                      | list ys => simp [targetWf, ha, hg] at h
                      | dict d => simp [targetWf, ha, hg] at h
                      | null =>
                          simp [targetCheck, targetSpec, targetViol, isNullV, gaOf, gaHead,
                            pyGet, pyGetD, dGet, ha, hg, pyIndexStr, pyIndexNat]
                      | bool b =>
                          simp [targetCheck, targetSpec, targetViol, isNullV, gaOf, gaHead,
                            pyGet, pyGetD, dGet, ha, hg, pyIndexStr, pyIndexNat]
                      | int n =>
                          simp [targetCheck, targetSpec, targetViol, isNullV, gaOf, gaHead,
                            pyGet, pyGetD, dGet, ha, hg, pyIndexStr, pyIndexNat]
              | str s =>
                  obtain ⟨cs⟩ := s
                  cases cs with
                  | nil => simp [targetWf, ha, hg] at h
                  | cons c cs2 =>
                      simp only [targetCheck, pyGet, pyGetD, dGet, ha, hg,
                        Option.getD_some, pym_bind_ok, pyIndexStr, pyIndexNat,
                        List.get?_cons_zero, targetSpec, targetViol, isNullV, gaOf,
                        gaHead, isStrIn]
                      cases hc : fnames.contains (String.mk [c]) <;>
                        cases hi : icfns.any
                          (fun x => match x with
                            | Val.str s => s == String.mk [c] | _ => false) <;>
                        simp [hc, hi]
              | bool b => simp [targetWf, ha, hg] at h
              | int n => simp [targetWf, ha, hg] at h
              | dict d => simp [targetWf, ha, hg] at h
        | null => simp [targetWf, ha] at h
        | bool b => simp [targetWf, ha] at h
        | int n => simp [targetWf, ha] at h
        | str s => simp [targetWf, ha] at h
        | list xs => simp [targetWf, ha] at h
  | null => simp [targetWf] at h
  | bool b => simp [targetWf] at h
  | int n => simp [targetWf] at h
  | str s => simp [targetWf] at h
  | list xs => simp [targetWf] at h

/-- The target loop on a list of well-formed targets. -/
theorem targetsGo_eq (fnames : List String) (icfns : List Val) (key : String)
    (ts : List Val) (h : ts.all targetWf = true) :
    targetsGo fnames icfns key ts =
      Except.ok ((ts.map (targetSpec fnames icfns key)).flatten) := by
  induction ts with
  | nil => rfl
  | cons tg rest ih =>
      simp only [List.all_cons, Bool.and_eq_true] at h
      obtain ⟨h1, h2⟩ := h
      simp [targetsGo, targetCheck_eq fnames icfns key tg h1, ih h2]

/-- The rule loop body on one well-formed rule entry. -/
theorem ruleCheck_eq (fnames : List String) (icfns : List Val) (k : String)
    (v : Val) (h : ruleEntryWf v = true) :
    ruleCheck fnames icfns (k, v) =
      Except.ok (ruleSpecEntry fnames icfns (k, v)) := by
  cases v with
  | dict kvs =>
      rcases hp : kvs.lookup "Properties" with _ | p
      · simp [ruleCheck, ruleSpecEntry, targetsOf, pyGetD, dGet, hp, pyIter,
          List.lookup, targetsGo]
      · cases p with
        | dict props =>
            rcases ht : props.lookup "Targets" with _ | tv
            · simp [ruleCheck, ruleSpecEntry, targetsOf, pyGetD, dGet, hp, ht,
                pyIter, targetsGo]
            · cases tv with
              | list ts =>
                  have hwf : ts.all targetWf = true := by
                    simpa [ruleEntryWf, hp, ht] using h
                  simp [ruleCheck, ruleSpecEntry, targetsOf, pyGetD, dGet, hp, ht,
                    pyIter, targetsGo_eq fnames icfns k ts hwf]
              | null => simp [ruleEntryWf, hp, ht] at h
              | bool b => simp [ruleEntryWf, hp, ht] at h
              | int n => simp [ruleEntryWf, hp, ht] at h
              | str s => simp [ruleEntryWf, hp, ht] at h
              | dict d => simp [ruleEntryWf, hp, ht] at h
        | null => simp [ruleEntryWf, hp] at h
        | bool b => simp [ruleEntryWf, hp] at h
        | int n => simp [ruleEntryWf, hp] at h
        | str s => simp [ruleEntryWf, hp] at h
        | list xs => simp [ruleEntryWf, hp] at h
  | null => simp [ruleEntryWf] at h
  | bool b => simp [ruleEntryWf] at h
  | int n => simp [ruleEntryWf] at h
  | str s => simp [ruleEntryWf] at h
  | list xs => simp [ruleEntryWf] at h

/-- The rule loop on a well-formed rule list. -/
theorem rulesGo_eq (fnames : List String) (icfns : List Val)
    (rs : List (String × Val)) (h : rs.all (fun kv => ruleEntryWf kv.2) = true) :
    rulesGo fnames icfns rs =
      Except.ok ((rs.map (ruleSpecEntry fnames icfns)).flatten) := by
  induction rs with
  | nil => rfl
  | cons kv rest ih =>
      simp only [List.all_cons, Bool.and_eq_true] at h
      obtain ⟨h1, h2⟩ := h
      obtain ⟨k, v⟩ := kv
      simp [rulesGo, ruleCheck_eq fnames icfns k v h1, ih h2]

/-- `LambdaRuleInvokeConfig.match` on a well-formed template is
exception free and equals its pure characterization. -/
theorem LambdaRuleInvokeConfig_match_eq (t : Template) (h : wfInvoke t = true) :
    LambdaRuleInvokeConfig_match t = Except.ok (invokeSpec t) := by
  simp only [wfInvoke, Bool.and_eq_true] at h
  obtain ⟨h1, h2⟩ := h
  have hic : ((get_resources t "AWS::Lambda::EventInvokeConfig").map Prod.snd).all
      icEntryWf = true := by
    simp only [List.all_eq_true] at h1 ⊢
    intro x hx
    obtain ⟨kv, hkv, rfl⟩ := List.mem_map.mp hx
    exact h1 kv hkv
  simp [LambdaRuleInvokeConfig_match, icGo_eq _ hic, rulesGo_eq _ _ _ h2,
    invokeSpec, fnNames, icfnsSpec]

/-- Removing keys from an exhausted mandatory list stays exhausted. -/
theorem mp_foldl_nil (keys : List String) :
    keys.foldl (fun acc key => if acc.contains key then acc.erase key else acc)
      [] = [] := by
  induction keys with
  | nil => rfl
  | cons k rest ih =>
      rw [List.foldl_cons]
      have hstep : (if ([] : List String).contains k then
          ([] : List String).erase k else []) = [] := rfl
      rw [hstep]
      exact ih

/-- The removal loop started on the singleton mandatory list. -/
theorem mp_foldl_env (keys : List String) :
    keys.foldl (fun acc key => if acc.contains key then acc.erase key else acc)
      ["Environment"] =
      if keys.contains "Environment" then [] else ["Environment"] := by
  induction keys with
  | nil => rfl
  | cons k rest ih =>
      rw [List.foldl_cons]
      by_cases h : k = "Environment"
      · subst h
        have hstep : (if (["Environment"] : List String).contains "Environment" then
            (["Environment"] : List String).erase "Environment"
            else ["Environment"]) = [] := by decide
        rw [hstep, mp_foldl_nil]
        have hc : (("Environment" :: rest).contains "Environment") = true := by
          simp [List.contains_cons]
        rw [hc]
        simp
      · have h1 : ("Environment" == k) = false := beq_eq_false_iff_ne.mpr (Ne.symm h)
        have h2 : (k == "Environment") = false := beq_eq_false_iff_ne.mpr h
        have hcf : (["Environment"] : List String).contains k = false := by
          simp [List.contains_cons]
          exact beq_eq_false_iff_ne.mp h2
        have hstep : (if (["Environment"] : List String).contains k then
            (["Environment"] : List String).erase k
            else ["Environment"]) = ["Environment"] := by
          rw [hcf]
          simp
        rw [hstep, ih]
        have hc : ((k :: rest).contains "Environment") = rest.contains "Environment" := by
          simp [List.contains_cons]
          intro hh
          rw [hh] at h2
          simp at h2
        rw [hc]

/-- C6.  `MandatoryParametersRule.match` returns exactly one violation,
with path Parameters and the formatted message quoting Environment,
when the Parameters section lacks the Environment key, and the empty
list when it is present. -/
theorem C6_mandatory_parameters (t : Template) :
    MandatoryParametersRule_match t =
      if (t.parameters.map Prod.fst).contains "Environment" then []
      else [⟨["Parameters"], mpMsg "Environment"⟩] := by
  simp only [MandatoryParametersRule_match, MandatoryParametersRule_matchSt,
    mandatory_parameters, mp_foldl_env]
  split <;> simp

/-- C7.  Each rule is a pure function of the template snapshot: the
threaded class attribute of `MandatoryParametersRule` is unchanged by an
invocation (the source deep-copies it before removing elements), a
second invocation on the returned state gives the same result, and each
of the other four rules yields equal results on equal templates. -/
theorem C7_rules_pure (s : List String) (t : Template) :
    (MandatoryParametersRule_matchSt s t).2 = s ∧
    MandatoryParametersRule_matchSt (MandatoryParametersRule_matchSt s t).2 t =
      MandatoryParametersRule_matchSt s t ∧
    (∀ t2, t = t2 →
      Python38Rule_match t = Python38Rule_match t2 ∧
      LambdaLogGroupRule_match t = LambdaLogGroupRule_match t2 ∧
      LambdaESMDestinationConfig_match t = LambdaESMDestinationConfig_match t2 ∧
      LambdaRuleInvokeConfig_match t = LambdaRuleInvokeConfig_match t2) := by
  refine ⟨rfl, rfl, ?_⟩
  rintro t2 rfl
  exact ⟨rfl, rfl, rfl, rfl⟩

/-- Counting violations at a path through the `Python38Rule`
characterization equals counting offending entries with that key. -/
theorem py38_countP_filterMap (k : String) (rs : List (String × Val)) :
    ((rs.filterMap py38EntrySpec).countP
        (fun m => decide (m.path = ["Resources", k]))) =
      rs.countP (fun kv => decide (kv.1 = k) && !isRt38 kv.2) := by
  induction rs with
  | nil => rfl
  | cons kv rest ih =>
      obtain ⟨k0, v⟩ := kv
      by_cases hr : isRt38 v = true
      · simp [List.filterMap_cons, py38EntrySpec, hr, List.countP_cons, ih]
      · have hr2 : isRt38 v = false := by
          cases hh : isRt38 v
          · rfl
          · exact absurd hh hr
        simp only [List.filterMap_cons, py38EntrySpec, hr2, if_neg, List.countP_cons,
          ih, Bool.false_eq_true, not_false_eq_true, Bool.not_false, Bool.and_true]
        by_cases hk : k0 = k
        · subst hk
          simp
        · have : (["Resources", k0] : List String) ≠ ["Resources", k] := by
            intro hh
            exact hk (by injection hh with _ hh2; injection hh2)
          simp [this, hk]

/-- With no-duplicate keys, counting entries with a given present key
reduces to a test on the unique entry with that key. -/
theorem countP_key_nodup (k : String) (v : Val) (f : String × Val → Bool)
    (rs : List (String × Val)) (hnd : (rs.map Prod.fst).Nodup)
    (hm : (k, v) ∈ rs) :
    rs.countP (fun kv => decide (kv.1 = k) && f kv) = if f (k, v) then 1 else 0 := by
  induction rs with
  | nil => cases hm
  | cons a rest ih =>
      simp only [List.map_cons, List.nodup_cons] at hnd
      obtain ⟨hna, hnd2⟩ := hnd
      rcases List.mem_cons.mp hm with heq | hmem
      · have ha1 : a.1 = k := by rw [← heq]
        have h0 : rest.countP (fun kv => decide (kv.1 = k) && f kv) = 0 := by
          rw [List.countP_eq_zero]
          intro kv hkv
          simp only [Bool.and_eq_true, decide_eq_true_eq, not_and]
          intro h1 _
          apply hna
          rw [ha1, ← h1]
          exact List.mem_map_of_mem Prod.fst hkv
        rw [List.countP_cons, h0, ← heq]
        simp
      · have hka : ¬(a.1 = k) := by
          intro hh
          apply hna
          rw [hh]
          exact List.mem_map_of_mem Prod.fst hmem
        rw [List.countP_cons, ih hnd2 hmem]
        simp [hka]

/-- Keys of a sublist of the resource section stay duplicate free. -/
theorem nodup_get_resources (t : Template) (ty : String)
    (hnd : (t.resources.map Prod.fst).Nodup) :
    ((get_resources t ty).map Prod.fst).Nodup := by
  apply List.Nodup.sublist _ hnd
  exact List.Sublist.map Prod.fst (List.filter_sublist t.resources)

/-- C1.  Amended: on a template whose resource keys are unique and
whose Lambda functions all carry a dict Properties, `Python38Rule.match`
returns exactly one violation with path Resources-key for each function
whose Runtime differs from the string python3.8, no violation for a
function on that runtime, and nothing else. -/
theorem C1_python38_exact (t : Template) (hwf : wfPy38 t = true)
    (hnd : (t.resources.map Prod.fst).Nodup) :
    ∃ l, Python38Rule_match t = Except.ok l ∧
      (∀ k v, (k, v) ∈ get_resources t "AWS::Lambda::Function" →
        l.countP (fun m => decide (m.path = ["Resources", k])) =
          (if isRt38 v then 0 else 1)) ∧
      (∀ m ∈ l, ∃ kv ∈ get_resources t "AWS::Lambda::Function",
        m.path = ["Resources", kv.1] ∧ isRt38 kv.2 = false) := by
  refine ⟨py38Spec t, Python38Rule_match_eq t hwf, ?_, ?_⟩
  · intro k v hm
    rw [py38Spec, py38_countP_filterMap]
    rw [countP_key_nodup k v (fun kv => !isRt38 kv.2) _ (nodup_get_resources t _ hnd) hm]
    cases hh : isRt38 v <;> simp
  · intro m hm
    obtain ⟨kv, hkv, hspec⟩ := List.mem_filterMap.mp hm
    refine ⟨kv, hkv, ?_⟩
    by_cases hr : isRt38 kv.2 = true
    · rw [py38EntrySpec, if_pos hr] at hspec
      exact Option.noConfusion hspec
    · have hr2 : isRt38 kv.2 = false := by
        cases hh : isRt38 kv.2
        · rfl
        · exact absurd hh hr
      rw [py38EntrySpec, if_neg hr] at hspec
      injection hspec with hspec
      constructor
      · rw [← hspec]
      · exact hr2

/-- C1 counterexample: on a template holding a function without
Properties next to a function on python2.7, the rule raises
`AttributeError` and returns no violation list at all, while the claim
demands exactly one violation for the python2.7 function. -/
theorem C1_counterexample :
    Python38Rule_match tC1c = Except.error PyError.attributeError ∧
    (Python38Rule_match tC1c).isOk = false := ⟨rfl, rfl⟩

/-- C1 witness. -/
theorem C1_witness :
    ∃ l, Python38Rule_match tC1w = Except.ok l ∧
      (∀ k v, (k, v) ∈ get_resources tC1w "AWS::Lambda::Function" →
        l.countP (fun m => decide (m.path = ["Resources", k])) =
          (if isRt38 v then 0 else 1)) ∧
      (∀ m ∈ l, ∃ kv ∈ get_resources tC1w "AWS::Lambda::Function",
        m.path = ["Resources", kv.1] ∧ isRt38 kv.2 = false) :=
  C1_python38_exact tC1w (by rfl) (by decide)

/-- C2.  Amended: each of the four resource-scanning rules completes
without an exception on templates whose lookups land on the shapes the
code assumes (dict Properties where accessed without a default, string
`Fn::Sub` values, Ref mappings under invoke configs with OnFailure, and
list Targets of well-formed targets); `MandatoryParametersRule.match`
is total by construction. -/
theorem C2_no_exception_wf (t : Template) (h : wfAll t = true) :
    (∃ l, Python38Rule_match t = Except.ok l) ∧
    (∃ l, LambdaLogGroupRule_match t = Except.ok l) ∧
    (∃ l, LambdaESMDestinationConfig_match t = Except.ok l) ∧
    (∃ l, LambdaRuleInvokeConfig_match t = Except.ok l) := by
  simp only [wfAll, Bool.and_eq_true] at h
  obtain ⟨⟨⟨h1, h2⟩, h3⟩, h4⟩ := h
  exact ⟨⟨_, Python38Rule_match_eq t h1⟩, ⟨_, LambdaLogGroupRule_match_eq t h2⟩,
    ⟨_, LambdaESMDestinationConfig_match_eq t h3⟩,
    ⟨_, LambdaRuleInvokeConfig_match_eq t h4⟩⟩

/-- C2 counterexample: a template whose only resource is a Lambda
function without a Properties entry makes `Python38Rule.match` raise
`AttributeError` (the lookup `value.get("Properties").get("Runtime")`
has no default on the first step), so not every malformed lookup is
guarded. -/
theorem C2_counterexample :
    Python38Rule_match tC2c = Except.error PyError.attributeError ∧
    (Python38Rule_match tC2c).isOk = false := ⟨rfl, rfl⟩

/-- C2 witness. -/
theorem C2_witness :
    (∃ l, Python38Rule_match tC2w = Except.ok l) ∧
    (∃ l, LambdaLogGroupRule_match tC2w = Except.ok l) ∧
    (∃ l, LambdaESMDestinationConfig_match tC2w = Except.ok l) ∧
    (∃ l, LambdaRuleInvokeConfig_match tC2w = Except.ok l) :=
  C2_no_exception_wf tC2w (by rfl)

/-- C5.  Amended: on a template where present Properties and
DestinationConfig values of event source mappings are dicts,
`LambdaESMDestinationConfig.match` reports path Resources-key exactly
for the mappings whose defaulted OnFailure lookup yields `None`. -/
theorem C5_esm_iff (t : Template) (h : wfESM t = true) :
    ∃ l, LambdaESMDestinationConfig_match t = Except.ok l ∧
      ∀ k, ((∃ m ∈ l, m.path = ["Resources", k]) ↔
        (∃ v, (k, v) ∈ get_resources t "AWS::Lambda::EventSourceMapping" ∧
          onFailureNull v = true)) := by
  refine ⟨esmSpec t, LambdaESMDestinationConfig_match_eq t h, ?_⟩
  intro k
  constructor
  · rintro ⟨m, hm, hp⟩
    obtain ⟨⟨k0, v⟩, hkv, hspec⟩ := List.mem_filterMap.mp hm
    by_cases hn : onFailureNull v = true
    · rw [esmEntrySpec, if_pos hn] at hspec
      injection hspec with hspec
      rw [← hspec] at hp
      have hk : k0 = k := by simpa using hp
      subst hk
      exact ⟨v, hkv, hn⟩
    · rw [esmEntrySpec, if_neg hn] at hspec
      exact Option.noConfusion hspec
  · rintro ⟨v, hkv, hn⟩
    refine ⟨⟨["Resources", k], esmMsg k⟩, ?_, rfl⟩
    apply List.mem_filterMap.mpr
    exact ⟨(k, v), hkv, by rw [esmEntrySpec, if_pos hn]⟩

/-- C5 counterexample: an event source mapping whose Properties entry
is an explicit null makes the rule raise `AttributeError` (the default
only covers a missing key), while the claim demands a violation for
that mapping. -/
theorem C5_counterexample :
    LambdaESMDestinationConfig_match tC5c = Except.error PyError.attributeError ∧
    (LambdaESMDestinationConfig_match tC5c).isOk = false := ⟨rfl, rfl⟩

/-- C5 witness. -/
theorem C5_witness :
    ∃ l, LambdaESMDestinationConfig_match tC5w = Except.ok l ∧
      ∀ k, ((∃ m ∈ l, m.path = ["Resources", k]) ↔
        (∃ v, (k, v) ∈ get_resources tC5w "AWS::Lambda::EventSourceMapping" ∧
          onFailureNull v = true)) :=
  C5_esm_iff tC5w (by rfl)

/-- C4.  Amended: on a template whose log groups have dict Properties
and string `Fn::Sub` names, `LambdaLogGroupRule.match` reports path
Resources-f exactly for the declared function logical IDs f recognised
by no log group (no dict LogGroupName with a string `Fn::Sub` whose
first substitution variable is f). -/
theorem C4_log_group_iff (t : Template) (h : wfLogGroup t = true) :
    ∃ l, LambdaLogGroupRule_match t = Except.ok l ∧
      ∀ f, ((∃ m ∈ l, m.path = ["Resources", f]) ↔
        (f ∈ (get_resources t "AWS::Lambda::Function").map Prod.fst ∧
         ∀ v ∈ (get_resources t "AWS::Logs::LogGroup").map Prod.snd,
           f ∉ lgKnownSpec v)) := by
  refine ⟨lgSpec t, LambdaLogGroupRule_match_eq t h, ?_⟩
  intro f
  have hkn : (f ∉ knownSpec t) ↔
      ∀ v ∈ (get_resources t "AWS::Logs::LogGroup").map Prod.snd,
        f ∉ lgKnownSpec v := by
    rw [knownSpec]
    constructor
    · intro hnf v hv hmem
      apply hnf
      rw [List.mem_flatten]
      refine ⟨lgKnownSpec v, ?_, hmem⟩
      rw [List.mem_map]
      obtain ⟨kv, hkv, hv2⟩ := List.mem_map.mp hv
      exact ⟨kv, hkv, by rw [hv2]⟩
    · intro hall hmem
      rw [List.mem_flatten] at hmem
      obtain ⟨sub, hsub, hmem2⟩ := hmem
      obtain ⟨kv, hkv, hsub2⟩ := List.mem_map.mp hsub
      rw [← hsub2] at hmem2
      exact hall kv.2 (List.mem_map_of_mem Prod.snd hkv) hmem2
  constructor
  · rintro ⟨m, hm, hp⟩
    rw [lgSpec] at hm
    obtain ⟨f0, hf0, hm2⟩ := List.mem_map.mp hm
    rw [← hm2] at hp
    have hf : f0 = f := by simpa using hp
    subst hf
    obtain ⟨hmem, hcond⟩ := List.mem_filter.mp hf0
    refine ⟨hmem, hkn.mp ?_⟩
    simpa using hcond
  · rintro ⟨hmem, hall⟩
    refine ⟨⟨["Resources", f], lgMsg f⟩, ?_, rfl⟩
    rw [lgSpec]
    apply List.mem_map_of_mem
    apply List.mem_filter.mpr
    refine ⟨hmem, ?_⟩
    simpa using hkn.mpr hall

/-- C4 counterexample: a log group resource without a Properties entry
makes the rule raise `TypeError` (membership test on `None`), while the
claim demands a violation for the uncovered function F. -/
theorem C4_counterexample :
    LambdaLogGroupRule_match tC4c = Except.error PyError.typeError ∧
    (LambdaLogGroupRule_match tC4c).isOk = false := ⟨rfl, rfl⟩

/-- C4 witness. -/
theorem C4_witness :
    ∃ l, LambdaLogGroupRule_match tC4w = Except.ok l ∧
      ∀ f, ((∃ m ∈ l, m.path = ["Resources", f]) ↔
        (f ∈ (get_resources tC4w "AWS::Lambda::Function").map Prod.fst ∧
         ∀ v ∈ (get_resources tC4w "AWS::Logs::LogGroup").map Prod.snd,
           f ∉ lgKnownSpec v)) :=
  C4_log_group_iff tC4w (by rfl)

/-- Membership in the invoke-rule characterization: a violation comes
from some rule entry and some offending target of that entry. -/
theorem invokeSpec_mem (t : Template) (m : RuleMatch) :
    m ∈ invokeSpec t ↔
      ∃ rk v, (rk, v) ∈ get_resources t "AWS::Events::Rule" ∧
        m = ⟨["Resources", rk], ruleMsg rk⟩ ∧
        ∃ tg ∈ targetsOf v, targetViol (fnNames t) (icfnsSpec t) tg = true := by
  constructor
  · intro hm
    rw [invokeSpec] at hm
    obtain ⟨lsub, hlsub, hmsub⟩ := List.mem_flatten.mp hm
    obtain ⟨⟨k0, v⟩, hkv, hlsub2⟩ := List.mem_map.mp hlsub
    rw [← hlsub2, ruleSpecEntry] at hmsub
    obtain ⟨l2, hl2, hm2⟩ := List.mem_flatten.mp hmsub
    obtain ⟨tg, htg, hl22⟩ := List.mem_map.mp hl2
    rw [← hl22, targetSpec] at hm2
    by_cases hv : targetViol (fnNames t) (icfnsSpec t) tg = true
    · rw [if_pos hv] at hm2
      have hm3 := List.mem_singleton.mp hm2
      exact ⟨k0, v, hkv, hm3, tg, htg, hv⟩
    · rw [if_neg hv] at hm2
      exact absurd hm2 (List.not_mem_nil m)
  · rintro ⟨rk, v, hkv, hm, tg, htg, hv⟩
    rw [invokeSpec]
    apply List.mem_flatten.mpr
    refine ⟨ruleSpecEntry (fnNames t) (icfnsSpec t) (rk, v),
      List.mem_map_of_mem _ hkv, ?_⟩
    rw [ruleSpecEntry]
    apply List.mem_flatten.mpr
    refine ⟨targetSpec (fnNames t) (icfnsSpec t) rk tg,
      List.mem_map_of_mem _ htg, ?_⟩
    rw [targetSpec, if_pos hv, hm]
    exact List.mem_singleton.mpr rfl

/-- What a true target violation implies about the target: a present
GetAtt whose element 0 is a string naming a declared function with no
covering invoke config. -/
theorem targetViol_elim (fn : List String) (ic : List Val) (tg : Val)
    (h : targetViol fn ic tg = true) :
    gaOf tg ≠ Val.null ∧
      ∃ f, gaHead (gaOf tg) = Val.str f ∧ f ∈ fn ∧ isStrIn f ic = false := by
  rw [targetViol] at h
  by_cases hn : isNullV (gaOf tg) = true
  · rw [if_pos hn] at h
    exact absurd h (by simp)
  · rw [if_neg hn] at h
    have hnn : gaOf tg ≠ Val.null := by
      intro hh
      apply hn
      rw [hh]
      rfl
    cases hh : gaHead (gaOf tg) with
    | str f =>
        rw [hh] at h
        simp only [Bool.and_eq_true] at h
        refine ⟨hnn, f, rfl, ?_, ?_⟩
        · simpa using h.1
        · simpa using h.2
    | null => rw [hh] at h; simp at h
    | bool b => rw [hh] at h; simp at h
    | int n => rw [hh] at h; simp at h
    | list xs => rw [hh] at h; simp at h
    | dict kvs => rw [hh] at h; simp at h

/-- C3.  Amended: on a well-formed template (dict-shaped lookups, Ref
mappings under invoke configs with a non-null OnFailure, list Targets),
`LambdaRuleInvokeConfig.match` reports path Resources-ruleKey exactly
for the rules having an offending target: a present `Arn.Fn::GetAtt`
whose element 0 names a declared function not covered by any invoke
config whose defaulted OnFailure lookup is non-null. -/
theorem C3_invoke_iff (t : Template) (h : wfInvoke t = true) :
    ∃ l, LambdaRuleInvokeConfig_match t = Except.ok l ∧
      ∀ rk, ((∃ m ∈ l, m.path = ["Resources", rk]) ↔
        (∃ v, (rk, v) ∈ get_resources t "AWS::Events::Rule" ∧
          ∃ tg ∈ targetsOf v,
            targetViol (fnNames t) (icfnsSpec t) tg = true)) := by
  refine ⟨invokeSpec t, LambdaRuleInvokeConfig_match_eq t h, ?_⟩
  intro rk
  constructor
  · rintro ⟨m, hm, hp⟩
    obtain ⟨rk0, v, hkv, hm2, tg, htg, hv⟩ := (invokeSpec_mem t m).mp hm
    rw [hm2] at hp
    have hk : rk0 = rk := by simpa using hp
    subst hk
    exact ⟨v, hkv, tg, htg, hv⟩
  · rintro ⟨v, hkv, tg, htg, hv⟩
    exact ⟨⟨["Resources", rk], ruleMsg rk⟩,
      (invokeSpec_mem t _).mpr ⟨rk, v, hkv, rfl, tg, htg, hv⟩, rfl⟩

/-- C3 counterexample: an invoke config with an OnFailure destination
but a plain-string FunctionName makes the rule raise `TypeError` on the
subscript `["FunctionName"]["Ref"]`, while the claim demands a
violation for rule R (no invoke config has a Ref equal to F). -/
theorem C3_counterexample :
    LambdaRuleInvokeConfig_match tC3c = Except.error PyError.typeError ∧
    (LambdaRuleInvokeConfig_match tC3c).isOk = false := ⟨rfl, rfl⟩

/-- C3 witness. -/
theorem C3_witness :
    ∃ l, LambdaRuleInvokeConfig_match tC3w = Except.ok l ∧
      ∀ rk, ((∃ m ∈ l, m.path = ["Resources", rk]) ↔
        (∃ v, (rk, v) ∈ get_resources tC3w "AWS::Events::Rule" ∧
          ∃ tg ∈ targetsOf v,
            targetViol (fnNames tC3w) (icfnsSpec tC3w) tg = true)) :=
  C3_invoke_iff tC3w (by rfl)

/-- C10.  Amended: on a well-formed template every violation the rule
reports comes from a target with a present `Arn.Fn::GetAtt` whose
element 0 is a string naming a declared function; targets whose Arn
mapping lacks `Fn::GetAtt` (for example a Ref) or whose GetAtt head is
not a declared function contribute nothing.  A target whose Arn is a
non-mapping such as a plain ARN string is not silently skipped: it
raises `AttributeError` (see the counterexample). -/
theorem C10_targets_filtered (t : Template) (h : wfInvoke t = true) :
    ∃ l, LambdaRuleInvokeConfig_match t = Except.ok l ∧
      ∀ m ∈ l, ∃ rk v, (rk, v) ∈ get_resources t "AWS::Events::Rule" ∧
        m.path = ["Resources", rk] ∧
        ∃ tg ∈ targetsOf v, gaOf tg ≠ Val.null ∧
          ∃ f, gaHead (gaOf tg) = Val.str f ∧ f ∈ fnNames t := by
  refine ⟨invokeSpec t, LambdaRuleInvokeConfig_match_eq t h, ?_⟩
  intro m hm
  obtain ⟨rk, v, hkv, hm2, tg, htg, hv⟩ := (invokeSpec_mem t m).mp hm
  obtain ⟨hnn, f, hf, hfm, _⟩ := targetViol_elim _ _ _ hv
  exact ⟨rk, v, hkv, by rw [hm2], tg, htg, hnn, f, hf, hfm⟩

/-- C10 counterexample: a rule target whose Arn is a plain ARN string
raises `AttributeError` (a string has no `get` method), so such a
target is not silently skipped as claimed. -/
theorem C10_counterexample :
    LambdaRuleInvokeConfig_match tC10c = Except.error PyError.attributeError ∧
    (LambdaRuleInvokeConfig_match tC10c).isOk = false := ⟨rfl, rfl⟩

/-- C10 witness: a Ref-valued Arn target is skipped without any
violation even though no invoke config exists. -/
theorem C10_witness :
    ∃ l, LambdaRuleInvokeConfig_match tC10w = Except.ok l ∧
      ∀ m ∈ l, ∃ rk v, (rk, v) ∈ get_resources tC10w "AWS::Events::Rule" ∧
        m.path = ["Resources", rk] ∧
        ∃ tg ∈ targetsOf v, gaOf tg ≠ Val.null ∧
          ∃ f, gaHead (gaOf tg) = Val.str f ∧ f ∈ fnNames tC10w :=
  C10_targets_filtered tC10w (by rfl)

/-- C9.  A Lambda function whose Properties dict lacks a Runtime key is
reported with the message formatting the absent runtime as None. -/
theorem C9_missing_runtime (t : Template) (hwf : wfPy38 t = true)
    (k : String) (v : Val)
    (hm : (k, v) ∈ get_resources t "AWS::Lambda::Function")
    (hmr : py38MissingRuntime v = true) :
    ∃ l, Python38Rule_match t = Except.ok l ∧
      (⟨["Resources", k],
        "Function is using None runtime instead of python3.8"⟩ : RuleMatch) ∈ l := by
  refine ⟨py38Spec t, Python38Rule_match_eq t hwf, ?_⟩
  rw [py38Spec]
  apply List.mem_filterMap.mpr
  refine ⟨(k, v), hm, ?_⟩
  have hrt : py38Runtime v = Val.null := by
    rw [py38MissingRuntime] at hmr
    rw [py38Runtime]
    cases hd : dGet v "Properties" Val.null with
    | dict ps =>
        rw [hd] at hmr
        simp only [Option.isNone_iff_eq_none] at hmr
        simp [dGet, hmr]
    | null => rw [hd] at hmr; simp at hmr
    | bool b => rw [hd] at hmr; simp at hmr
    | int n => rw [hd] at hmr; simp at hmr
    | str s => rw [hd] at hmr; simp at hmr
    | list xs => rw [hd] at hmr; simp at hmr
  have hrt38 : isRt38 v = false := by rw [isRt38, hrt]
  rw [py38EntrySpec, if_neg (by rw [hrt38]; simp), hrt]
  rfl

/-- C9 witness. -/
theorem C9_witness :
    ∃ l, Python38Rule_match tC9w = Except.ok l ∧
      (⟨["Resources", "F"],
        "Function is using None runtime instead of python3.8"⟩ : RuleMatch) ∈ l :=
  C9_missing_runtime tC9w (by rfl) "F" fnNoRtv
    (by
      rw [show get_resources tC9w "AWS::Lambda::Function" = [("F", fnNoRtv)] from rfl]
      exact List.mem_singleton.mpr rfl)
    (by rfl)

/-- Any list `Python38Rule` returns for one entry holds only the path
Resources-key of that entry. -/
theorem py38Check_paths (kv : String × Val) (r : List RuleMatch)
    (h : py38Check kv = Except.ok r) :
    ∀ m ∈ r, m.path = ["Resources", kv.1] := by
  rcases h1 : pyGet kv.2 "Properties" with e | p
  · simp only [py38Check, h1, pym_bind_err] at h
    exact Except.noConfusion h
  · rcases h2 : pyGet p "Runtime" with e | rt
    · simp only [py38Check, h1, h2, pym_bind_ok, pym_bind_err] at h
      exact Except.noConfusion h
    · simp only [py38Check, h1, h2, pym_bind_ok, pym_pure] at h
      split at h
      · injection h with h
        subst h
        intro m hm
        exact absurd hm (List.not_mem_nil m)
      · injection h with h
        subst h
        intro m hm
        rw [List.mem_singleton.mp hm]

/-- Any list the `Python38Rule` loop returns draws its paths from the
scanned entries. -/
theorem py38Go_paths (rs : List (String × Val)) (l : List RuleMatch)
    (h : py38Go rs = Except.ok l) :
    ∀ m ∈ l, ∃ kv ∈ rs, m.path = ["Resources", kv.1] := by
  induction rs generalizing l with
  | nil =>
      simp only [py38Go, pym_pure, Except.ok.injEq] at h
      subst h
      intro m hm
      exact absurd hm (List.not_mem_nil m)
  | cons kv rest ih =>
      rcases hc : py38Check kv with e | here
      · simp only [py38Go, hc, pym_bind_err] at h
        exact Except.noConfusion h
      · rcases hg : py38Go rest with e | more
        · simp only [py38Go, hc, hg, pym_bind_ok, pym_bind_err] at h
          exact Except.noConfusion h
        · simp only [py38Go, hc, hg, pym_bind_ok, pym_pure, Except.ok.injEq] at h
          subst h
          intro m hm
          rcases List.mem_append.mp hm with hm1 | hm2
          · exact ⟨kv, List.mem_cons_self kv rest, py38Check_paths kv here hc m hm1⟩
          · obtain ⟨kv2, hkv2, hp⟩ := ih more hg m hm2
            exact ⟨kv2, List.mem_cons_of_mem kv hkv2, hp⟩

/-- Any list the event source mapping body returns for one entry holds
only the path Resources-key of that entry. -/
theorem esmCheck_paths (kv : String × Val) (r : List RuleMatch)
    (h : esmCheck kv = Except.ok r) :
    ∀ m ∈ r, m.path = ["Resources", kv.1] := by
  rcases h1 : pyGetD kv.2 "Properties" (Val.dict []) with e | p
  · simp only [esmCheck, h1, pym_bind_err] at h
    exact Except.noConfusion h
  · rcases h2 : pyGetD p "DestinationConfig" (Val.dict []) with e | d
    · simp only [esmCheck, h1, h2, pym_bind_ok, pym_bind_err] at h
      exact Except.noConfusion h
    · rcases h3 : pyGetD d "OnFailure" Val.null with e | onf
      · simp only [esmCheck, h1, h2, h3, pym_bind_ok, pym_bind_err] at h
        exact Except.noConfusion h
      · cases onf with
        | null =>
            simp only [esmCheck, h1, h2, h3, pym_bind_ok, pym_pure,
              Except.ok.injEq] at h
            subst h
            intro m hm
            rw [List.mem_singleton.mp hm]
        | bool b =>
            simp only [esmCheck, h1, h2, h3, pym_bind_ok, pym_pure,
              Except.ok.injEq] at h
            subst h
            intro m hm
            exact absurd hm (List.not_mem_nil m)
        | int n =>
            simp only [esmCheck, h1, h2, h3, pym_bind_ok, pym_pure,
              Except.ok.injEq] at h
            subst h
            intro m hm
            exact absurd hm (List.not_mem_nil m)
        | str s =>
            simp only [esmCheck, h1, h2, h3, pym_bind_ok, pym_pure,
              Except.ok.injEq] at h
            subst h
            intro m hm
            exact absurd hm (List.not_mem_nil m)
        | list xs =>
            simp only [esmCheck, h1, h2, h3, pym_bind_ok, pym_pure,
              Except.ok.injEq] at h
            subst h
            intro m hm
            exact absurd hm (List.not_mem_nil m)
        | dict kvs =>
            simp only [esmCheck, h1, h2, h3, pym_bind_ok, pym_pure,
              Except.ok.injEq] at h
            subst h
            intro m hm
            exact absurd hm (List.not_mem_nil m)

/-- Any list the event source mapping loop returns draws its paths from
the scanned entries. -/
theorem esmGo_paths (rs : List (String × Val)) (l : List RuleMatch)
    (h : esmGo rs = Except.ok l) :
    ∀ m ∈ l, ∃ kv ∈ rs, m.path = ["Resources", kv.1] := by
  induction rs generalizing l with
  | nil =>
      simp only [esmGo, pym_pure, Except.ok.injEq] at h
      subst h
      intro m hm
      exact absurd hm (List.not_mem_nil m)
  | cons kv rest ih =>
      rcases hc : esmCheck kv with e | here
      · simp only [esmGo, hc, pym_bind_err] at h
        exact Except.noConfusion h
      · rcases hg : esmGo rest with e | more
        · simp only [esmGo, hc, hg, pym_bind_ok, pym_bind_err] at h
          exact Except.noConfusion h
        · simp only [esmGo, hc, hg, pym_bind_ok, pym_pure, Except.ok.injEq] at h
          subst h
          intro m hm
          rcases List.mem_append.mp hm with hm1 | hm2
          · exact ⟨kv, List.mem_cons_self kv rest, esmCheck_paths kv here hc m hm1⟩
          · obtain ⟨kv2, hkv2, hp⟩ := ih more hg m hm2
            exact ⟨kv2, List.mem_cons_of_mem kv hkv2, hp⟩

/-- Any list the log group rule returns draws its paths from the
declared function logical IDs. -/
theorem lg_match_paths (t : Template) (l : List RuleMatch)
    (h : LambdaLogGroupRule_match t = Except.ok l) :
    ∀ m ∈ l, ∃ f, m.path = ["Resources", f] ∧
      f ∈ (get_resources t "AWS::Lambda::Function").map Prod.fst := by
  rcases hk : knownGo (get_resources t "AWS::Logs::LogGroup") with e | known
  · simp only [LambdaLogGroupRule_match, hk, pym_bind_err] at h
    exact Except.noConfusion h
  · simp only [LambdaLogGroupRule_match, hk, pym_bind_ok, pym_pure,
      Except.ok.injEq] at h
    subst h
    intro m hm
    obtain ⟨f, hf, hm2⟩ := List.mem_map.mp hm
    exact ⟨f, by rw [← hm2], (List.mem_filter.mp hf).1⟩

/-- Any list the target loop body returns holds only the path
Resources-key of the rule being scanned. -/
theorem targetCheck_paths (fnames : List String) (icfns : List Val) (key : String)
    (tg : Val) (r : List RuleMatch)
    (h : targetCheck fnames icfns key tg = Except.ok r) :
    ∀ m ∈ r, m.path = ["Resources", key] := by
  rcases h1 : pyGetD tg "Arn" (Val.dict []) with e | arn
  · simp only [targetCheck, h1, pym_bind_err] at h
    exact Except.noConfusion h
  · rcases h2 : pyGet arn "Fn::GetAtt" with e | ga
    · simp only [targetCheck, h1, h2, pym_bind_ok, pym_bind_err] at h
      exact Except.noConfusion h
    · cases ga
      case null =>
        simp only [targetCheck, h1, h2, pym_bind_ok, pym_pure] at h
        injection h with h
        subst h
        intro m hm
        exact absurd hm (List.not_mem_nil m)
      all_goals (
        simp only [targetCheck, h1, h2, pym_bind_ok] at h
        rcases h3 : pyIndexStr tg "Arn" with e | arn2
        · rw [h3, pym_bind_err] at h
          exact Except.noConfusion h
        · rw [h3, pym_bind_ok] at h
          rcases h4 : pyIndexStr arn2 "Fn::GetAtt" with e | ga2
          · rw [h4, pym_bind_err] at h
            exact Except.noConfusion h
          · rw [h4, pym_bind_ok] at h
            rcases h5 : pyIndexNat ga2 0 with e | f0
            · rw [h5, pym_bind_err] at h
              exact Except.noConfusion h
            · rw [h5, pym_bind_ok] at h
              cases f0 with
              | list xs => exact Except.noConfusion h
              | dict kvs => exact Except.noConfusion h
              | null =>
                  simp only [pym_pure, Except.ok.injEq] at h
                  subst h
                  intro m hm
                  exact absurd hm (List.not_mem_nil m)
              | bool b =>
                  simp only [pym_pure, Except.ok.injEq] at h
                  subst h
                  intro m hm
                  exact absurd hm (List.not_mem_nil m)
              | int n =>
                  simp only [pym_pure, Except.ok.injEq] at h
                  subst h
                  intro m hm
                  exact absurd hm (List.not_mem_nil m)
              | str f =>
                  simp only [pym_pure] at h
                  split at h
                  · split at h
                    · injection h with h
                      subst h
                      intro m hm
                      exact absurd hm (List.not_mem_nil m)
                    · injection h with h
                      subst h
                      intro m hm
                      rw [List.mem_singleton.mp hm]
                  · injection h with h
                    subst h
                    intro m hm
                    exact absurd hm (List.not_mem_nil m)
      )

/-- Any list the target loop returns holds only the path Resources-key
of the rule being scanned. -/
theorem targetsGo_paths (fnames : List String) (icfns : List Val) (key : String)
    (ts : List Val) (l : List RuleMatch)
    (h : targetsGo fnames icfns key ts = Except.ok l) :
    ∀ m ∈ l, m.path = ["Resources", key] := by
  induction ts generalizing l with
  | nil =>
      simp only [targetsGo, pym_pure, Except.ok.injEq] at h
      subst h
      intro m hm
      exact absurd hm (List.not_mem_nil m)
  | cons tg rest ih =>
      rcases hc : targetCheck fnames icfns key tg with e | here
      · simp only [targetsGo, hc, pym_bind_err] at h
        exact Except.noConfusion h
      · rcases hg : targetsGo fnames icfns key rest with e | more
        · simp only [targetsGo, hc, hg, pym_bind_ok, pym_bind_err] at h
          exact Except.noConfusion h
        · simp only [targetsGo, hc, hg, pym_bind_ok, pym_pure, Except.ok.injEq] at h
          subst h
          intro m hm
          rcases List.mem_append.mp hm with hm1 | hm2
          · exact targetCheck_paths fnames icfns key tg here hc m hm1
          · exact ih more hg m hm2

/-- Any list the rule loop body returns holds only the path
Resources-key of that rule entry. -/
theorem ruleCheck_paths (fnames : List String) (icfns : List Val)
    (kv : String × Val) (r : List RuleMatch)
    (h : ruleCheck fnames icfns kv = Except.ok r) :
    ∀ m ∈ r, m.path = ["Resources", kv.1] := by
  rcases h1 : pyGetD kv.2 "Properties" (Val.dict []) with e | p
  · simp only [ruleCheck, h1, pym_bind_err] at h
    exact Except.noConfusion h
  · rcases h2 : pyGetD p "Targets" (Val.list []) with e | tsv
    · simp only [ruleCheck, h1, h2, pym_bind_ok, pym_bind_err] at h
      exact Except.noConfusion h
    · rcases h3 : pyIter tsv with e | tgs
      · simp only [ruleCheck, h1, h2, h3, pym_bind_ok, pym_bind_err] at h
        exact Except.noConfusion h
      · simp only [ruleCheck, h1, h2, h3, pym_bind_ok] at h
        exact targetsGo_paths fnames icfns kv.1 tgs r h

/-- Any list the rule loop returns draws its paths from the scanned
rule entries. -/
theorem rulesGo_paths (fnames : List String) (icfns : List Val)
    (rs : List (String × Val)) (l : List RuleMatch)
    (h : rulesGo fnames icfns rs = Except.ok l) :
    ∀ m ∈ l, ∃ kv ∈ rs, m.path = ["Resources", kv.1] := by
  induction rs generalizing l with
  | nil =>
      simp only [rulesGo, pym_pure, Except.ok.injEq] at h
      subst h
      intro m hm
      exact absurd hm (List.not_mem_nil m)
  | cons kv rest ih =>
      rcases hc : ruleCheck fnames icfns kv with e | here
      · simp only [rulesGo, hc, pym_bind_err] at h
        exact Except.noConfusion h
      · rcases hg : rulesGo fnames icfns rest with e | more
        · simp only [rulesGo, hc, hg, pym_bind_ok, pym_bind_err] at h
          exact Except.noConfusion h
        · simp only [rulesGo, hc, hg, pym_bind_ok, pym_pure, Except.ok.injEq] at h
          subst h
          intro m hm
          rcases List.mem_append.mp hm with hm1 | hm2
          · exact ⟨kv, List.mem_cons_self kv rest, ruleCheck_paths fnames icfns kv here hc m hm1⟩
          · obtain ⟨kv2, hkv2, hp⟩ := ih more hg m hm2
            exact ⟨kv2, List.mem_cons_of_mem kv hkv2, hp⟩

/-- Any list `LambdaRuleInvokeConfig.match` returns draws its paths
from the declared events rules. -/
theorem invoke_match_paths (t : Template) (l : List RuleMatch)
    (h : LambdaRuleInvokeConfig_match t = Except.ok l) :
    ∀ m ∈ l, ∃ kv ∈ get_resources t "AWS::Events::Rule",
      m.path = ["Resources", kv.1] := by
  rcases hi : icGo ((get_resources t "AWS::Lambda::EventInvokeConfig").map Prod.snd)
      with e | icfns
  · simp only [LambdaRuleInvokeConfig_match, hi, pym_bind_err] at h
    exact Except.noConfusion h
  · simp only [LambdaRuleInvokeConfig_match, hi, pym_bind_ok] at h
    exact rulesGo_paths _ _ _ _ h

/-- Every violation of `MandatoryParametersRule.match` has path
Parameters. -/
theorem mp_paths (t : Template) :
    ∀ m ∈ MandatoryParametersRule_match t, m.path = ["Parameters"] := by
  intro m hm
  simp only [MandatoryParametersRule_match, MandatoryParametersRule_matchSt] at hm
  obtain ⟨p, hp, hm2⟩ := List.mem_map.mp hm
  rw [← hm2]

/-- A resource entry of a filtered kind is an entry of the Resources
section, so its key occurs in the template. -/
theorem key_in_resources (t : Template) (ty : String) (kv : String × Val)
    (h : kv ∈ get_resources t ty) : kv.1 ∈ t.resources.map Prod.fst :=
  List.mem_map_of_mem Prod.fst (List.mem_of_mem_filter h)

/-- C8.  Every value any of the five rules returns is a list of
violation records whose message is a string by construction and whose
path is Parameters for the parameter rule and Resources followed by a
resource logical ID of the template for the four resource rules. -/
theorem C8_result_shape (t : Template) :
    (∀ m ∈ MandatoryParametersRule_match t, m.path = ["Parameters"]) ∧
    (∀ l, Python38Rule_match t = Except.ok l →
      ∀ m ∈ l, ∃ k, m.path = ["Resources", k] ∧ k ∈ t.resources.map Prod.fst) ∧
    (∀ l, LambdaLogGroupRule_match t = Except.ok l →
      ∀ m ∈ l, ∃ k, m.path = ["Resources", k] ∧ k ∈ t.resources.map Prod.fst) ∧
    (∀ l, LambdaESMDestinationConfig_match t = Except.ok l →
      ∀ m ∈ l, ∃ k, m.path = ["Resources", k] ∧ k ∈ t.resources.map Prod.fst) ∧
    (∀ l, LambdaRuleInvokeConfig_match t = Except.ok l →
      ∀ m ∈ l, ∃ k, m.path = ["Resources", k] ∧ k ∈ t.resources.map Prod.fst) := by
  refine ⟨mp_paths t, ?_, ?_, ?_, ?_⟩
  · intro l h m hm
    obtain ⟨kv, hkv, hp⟩ := py38Go_paths _ _ h m hm
    exact ⟨kv.1, hp, key_in_resources t _ kv hkv⟩
  · intro l h m hm
    obtain ⟨f, hp, hf⟩ := lg_match_paths t l h m hm
    obtain ⟨kv, hkv, hk⟩ := List.mem_map.mp hf
    exact ⟨f, hp, hk ▸ key_in_resources t _ kv hkv⟩
  · intro l h m hm
    obtain ⟨kv, hkv, hp⟩ := esmGo_paths _ _ h m hm
    exact ⟨kv.1, hp, key_in_resources t _ kv hkv⟩
  · intro l h m hm
    obtain ⟨kv, hkv, hp⟩ := invoke_match_paths t l h m hm
    exact ⟨kv.1, hp, key_in_resources t _ kv hkv⟩

/-- C8 witness. -/
theorem C8_witness :
    (∀ m ∈ MandatoryParametersRule_match tC2w, m.path = ["Parameters"]) ∧
    (∀ l, Python38Rule_match tC2w = Except.ok l →
      ∀ m ∈ l, ∃ k, m.path = ["Resources", k] ∧ k ∈ tC2w.resources.map Prod.fst) ∧
    (∀ l, LambdaLogGroupRule_match tC2w = Except.ok l →
      ∀ m ∈ l, ∃ k, m.path = ["Resources", k] ∧ k ∈ tC2w.resources.map Prod.fst) ∧
    (∀ l, LambdaESMDestinationConfig_match tC2w = Except.ok l →
      ∀ m ∈ l, ∃ k, m.path = ["Resources", k] ∧ k ∈ tC2w.resources.map Prod.fst) ∧
    (∀ l, LambdaRuleInvokeConfig_match tC2w = Except.ok l →
      ∀ m ∈ l, ∃ k, m.path = ["Resources", k] ∧ k ∈ tC2w.resources.map Prod.fst) :=
  C8_result_shape tC2w

/-- C9 counterexample: with a second function lacking Properties in the
template, the rule raises before reporting the function without a
Runtime key, so the claim does not hold on every template. -/
theorem C9_counterexample :
    Python38Rule_match tC9c = Except.error PyError.attributeError ∧
    (Python38Rule_match tC9c).isOk = false := ⟨rfl, rfl⟩

/-- C6 witness. -/
theorem C6_witness :
    MandatoryParametersRule_match (⟨[("Other", Val.str "x")], []⟩ : Template) =
      if (((⟨[("Other", Val.str "x")], []⟩ : Template).parameters.map
            Prod.fst).contains "Environment") then []
      else [⟨["Parameters"], mpMsg "Environment"⟩] :=
  C6_mandatory_parameters ⟨[("Other", Val.str "x")], []⟩

/-- C7 witness. -/
theorem C7_witness :
    (MandatoryParametersRule_matchSt ["Environment"] tC2w).2 = ["Environment"] ∧
    MandatoryParametersRule_matchSt
        (MandatoryParametersRule_matchSt ["Environment"] tC2w).2 tC2w =
      MandatoryParametersRule_matchSt ["Environment"] tC2w ∧
    (∀ t2, tC2w = t2 →
      Python38Rule_match tC2w = Python38Rule_match t2 ∧
      LambdaLogGroupRule_match tC2w = LambdaLogGroupRule_match t2 ∧
      LambdaESMDestinationConfig_match tC2w = LambdaESMDestinationConfig_match t2 ∧
      LambdaRuleInvokeConfig_match tC2w = LambdaRuleInvokeConfig_match t2) :=
  C7_rules_pure ["Environment"] tC2w
